import Mathlib

/-!
Verification of the financial-datasets MCP server (`src/server.py`).

The development shallowly embeds the Python module:

* `Json` models the values `json.loads` / `json.dumps` work with, with JSON
  numbers restricted to arbitrary-precision integers (the Python `int` case;
  IEEE floats are outside the embedding).
* `Json.dumps` models `json.dumps(v, indent=2)` exactly as CPython renders it
  (2-space indentation, `ensure_ascii` escaping with `\uXXXX` and surrogate
  pairs, `", "`/`": "` separators).
* `parse` models `json.loads` on the integer fragment: whitespace handling,
  string escapes including surrogate-pair recombination, last-wins duplicate
  object keys, and rejection of trailing input.
* `Transport` and `make_request` model the request adapter: the transport
  outcome for the single HTTP GET is an oracle input, `raise_for_status`
  raises for every non-2xx status, and every raised exception is folded into
  the mapping `{"Error": str(e)}` (brace characters are written via
  `Char.ofNat` throughout).
* Each MCP tool is transcribed line by line from `server.py`; tools return
  `Except String String` where `Except.error` marks a Python exception
  escaping the tool body (e.g. `AttributeError` from `data.get` when `data`
  is not a dict).
-/

/-- JSON values as produced by `json.loads` restricted to integer numbers.
Objects carry their key/value pairs in insertion order, as Python dicts do. -/
inductive Json where
  | null : Json
  | bool : Bool → Json
  | num : Int → Json
  | str : String → Json
  | arr : List Json → Json
  | obj : List (String × Json) → Json

/-- The opening brace character, `"{"`. -/
def lbrace : Char := Char.ofNat 123

/-- The closing brace character, `"}"`. -/
def rbrace : Char := Char.ofNat 125

/-- Python truthiness of a JSON value (`bool(v)`): `None`, `False`, `0`, `""`,
`[]` and `{}` are falsy, everything else truthy.  The tools test `if not data`
and `if not field_value` with exactly this notion. -/
def Json.falsy : Json → Bool
  | .null => true
  | .bool b => !b
  | .num i => i == 0
  | .str s => s == ""
  | .arr xs => xs.isEmpty
  | .obj kvs => kvs.isEmpty

/-- `key` does not occur among the keys of an association list. -/
def keyAbsent (key : String) : List (String × Json) → Bool
  | [] => true
  | (k, _) :: rest => !(k == key) && keyAbsent key rest

/-- Assign `key := v` in an association list the way a Python dict does:
an existing key keeps its position and gets the new value, a new key is
appended at the end. -/
def setPair : List (String × Json) → String → Json → List (String × Json)
  | [], key, v => [(key, v)]
  | (k, w) :: rest, key, v =>
    if k == key then (k, v) :: rest else (k, w) :: setPair rest key v

mutual

/-- Well-formedness: every object in the value has duplicate-free keys.
`json.loads` only produces such values (Python dicts cannot carry duplicate
keys), so the round-trip theorem is stated for them. -/
def Json.wf : Json → Bool
  | .null => true
  | .bool _ => true
  | .num _ => true
  | .str _ => true
  | .arr xs => Json.wfList xs
  | .obj kvs => Json.wfPairs kvs

/-- All values of a list are well-formed. -/
def Json.wfList : List Json → Bool
  | [] => true
  | x :: xs => x.wf && Json.wfList xs

/-- A pair list has duplicate-free keys and well-formed values. -/
def Json.wfPairs : List (String × Json) → Bool
  | [] => true
  | (k, v) :: rest => v.wf && keyAbsent k rest && Json.wfPairs rest

end

/-- `data.get(key, default)`: on a dict, the stored value or the default; on
any other JSON value the attribute lookup raises (`AttributeError`), modelled
as `Except.error`. -/
def pyGet (data : Json) (key : String) (default : Json) : Except String Json :=
  match data with
  | .obj kvs =>
    match List.lookup key kvs with
    | some v => Except.ok v
    | none => Except.ok default
  | _ => Except.error "AttributeError"

/-! ### Decimal rendering of integers (`str(int)` in Python) -/

/-- Decimal digit characters of `n`, most significant first, in front of
`acc`. -/
def decDigits (n : Nat) (acc : List Char) : List Char :=
  if h : n = 0 then acc
  else decDigits (n / 10) (Char.ofNat (48 + n % 10) :: acc)
termination_by n
decreasing_by exact Nat.div_lt_self (Nat.pos_of_ne_zero h) (by omega)

/-- The decimal expansion of a natural number, as Python prints it. -/
def natChars (n : Nat) : List Char := if n = 0 then ['0'] else decDigits n []

/-- The decimal expansion of an integer, sign included: `str(i)`. -/
def intChars : Int → List Char
  | Int.ofNat n => natChars n
  | Int.negSucc m => '-' :: natChars (m + 1)

/-! ### Number parsing (the integer production of the JSON grammar) -/

/-- Maximal run of decimal digits at the front of the input. -/
def grabDigits : List Char → List Char × List Char
  | [] => ([], [])
  | c :: cs =>
    if c.isDigit then
      let p := grabDigits cs
      (c :: p.1, p.2)
    else ([], c :: cs)

/-- Numeric value of a run of decimal digit characters. -/
def digitsVal (ds : List Char) : Nat :=
  ds.foldl (fun a c => a * 10 + (c.toNat - 48)) 0

/-- The input continues with a character that cannot extend a number (so a
maximal-munch number parse stopping here agrees with Python).  Floats are not
modelled: a number continuing with `.`/`e`/`E` makes the parse fail rather
than misread a float as an integer. -/
def numStop : List Char → Bool
  | [] => true
  | c :: _ => !(c.isDigit || c == '.' || c == 'e' || c == 'E')

/-- Parse an unsigned JSON integer: `0`, or a nonzero digit followed by more
digits, with no leading zeros and no float continuation. -/
def parseUNum : List Char → Option (Nat × List Char)
  | [] => none
  | c :: cs =>
    if c == '0' then
      if numStop cs then some (0, cs) else none
    else if c.isDigit then
      let p := grabDigits cs
      if numStop p.2 then some (digitsVal (c :: p.1), p.2) else none
    else none

/-- Parse a JSON integer with an optional leading minus sign. -/
def parseNum : List Char → Option (Int × List Char)
  | [] => none
  | c :: cs =>
    if c == '-' then
      match parseUNum cs with
      | some (n, rest) => some (-(n : Int), rest)
      | none => none
    else
      match parseUNum (c :: cs) with
      | some (n, rest) => some ((n : Int), rest)
      | none => none

theorem decDigits_shift (n : Nat) : ∀ acc : List Char,
    decDigits n acc = decDigits n [] ++ acc := by
  induction n using Nat.strongRecOn with
  | ind n ih =>
    intro acc
    by_cases h : n = 0
    · simp [decDigits, h]
    · have hlt : n / 10 < n := Nat.div_lt_self (Nat.pos_of_ne_zero h) (by omega)
      conv_lhs => rw [decDigits]
      conv_rhs => rw [decDigits]
      simp only [h, dite_false]
      rw [ih _ hlt (Char.ofNat (48 + n % 10) :: acc), ih _ hlt [Char.ofNat (48 + n % 10)]]
      simp

theorem decDigits_zero (acc : List Char) : decDigits 0 acc = acc := by
  rw [decDigits]
  simp

theorem decDigits_ne_nil (n : Nat) (h : n ≠ 0) : decDigits n [] ≠ [] := by
  rw [decDigits]
  simp only [h, dite_false]
  rw [decDigits_shift]
  simp

/-- Each produced character is a decimal digit. -/
theorem decDigits_all_digits (n : Nat) :
    ∀ c ∈ decDigits n [], c.isDigit = true := by
  induction n using Nat.strongRecOn with
  | ind n ih =>
    intro c hc
    by_cases h : n = 0
    · simp [decDigits, h] at hc
    · rw [decDigits] at hc
      simp only [h, dite_false] at hc
      rw [decDigits_shift] at hc
      rcases List.mem_append.mp hc with h1 | h2
      · exact ih _ (Nat.div_lt_self (Nat.pos_of_ne_zero h) (by omega)) c h1
      · have hd : n % 10 < 10 := Nat.mod_lt _ (by omega)
        have hcv : c = Char.ofNat (48 + n % 10) := by simpa using h2
        subst hcv
        interval_cases h10 : n % 10 <;> decide

theorem digitsVal_snoc (ds : List Char) (c : Char) :
    digitsVal (ds ++ [c]) = digitsVal ds * 10 + (c.toNat - 48) := by
  simp [digitsVal, List.foldl_append]

/-- The decimal digits evaluate back to the number. -/
theorem digitsVal_decDigits (n : Nat) : digitsVal (decDigits n []) = n := by
  induction n using Nat.strongRecOn with
  | ind n ih =>
    by_cases h : n = 0
    · simp [decDigits, h, digitsVal]
    · rw [decDigits]
      simp only [h, dite_false]
      rw [decDigits_shift, digitsVal_snoc,
        ih _ (Nat.div_lt_self (Nat.pos_of_ne_zero h) (by omega))]
      have hd : n % 10 < 10 := Nat.mod_lt _ (by omega)
      have : (Char.ofNat (48 + n % 10)).toNat = 48 + n % 10 := by
        interval_cases h10 : n % 10 <;> decide
      omega

/-- The leading character of a nonzero decimal expansion is a nonzero digit. -/
theorem decDigits_head (n : Nat) (h : n ≠ 0) :
    ∃ c t, decDigits n [] = c :: t ∧ c.isDigit = true ∧ (c == '0') = false := by
  induction n using Nat.strongRecOn with
  | ind n ih =>
    rw [decDigits]
    simp only [h, dite_false]
    rw [decDigits_shift]
    by_cases h10 : n / 10 = 0
    · rw [h10, decDigits_zero, List.nil_append]
      have hn : n < 10 := by omega
      have hn1 : 1 ≤ n := Nat.pos_of_ne_zero h
      refine ⟨Char.ofNat (48 + n % 10), [], rfl, ?_, ?_⟩ <;>
        (interval_cases n <;> decide)
    · obtain ⟨c, t, heq, hdig, hz⟩ :=
        ih (n / 10) (Nat.div_lt_self (Nat.pos_of_ne_zero h) (by omega)) h10
      exact ⟨c, t ++ [Char.ofNat (48 + n % 10)], by rw [heq]; simp, hdig, hz⟩

/-- `grabDigits` consumes exactly a digit run when the remainder cannot extend
a number. -/
theorem grabDigits_run (ds : List Char) (rest : List Char)
    (hds : ∀ c ∈ ds, c.isDigit = true) (hrest : numStop rest = true) :
    grabDigits (ds ++ rest) = (ds, rest) := by
  induction ds with
  | nil =>
    cases rest with
    | nil => rfl
    | cons c cs =>
      simp only [numStop, Bool.not_eq_true', Bool.or_eq_false_iff] at hrest
      simp [grabDigits, hrest.1.1.1]
  | cons c cs ih =>
    have hc := hds c (by simp)
    simp only [List.cons_append, grabDigits, hc, if_true]
    simp [ih (fun x hx => hds x (by simp [hx]))]

/-- Parsing an unsigned rendered natural recovers it. -/
theorem parseUNum_natChars (n : Nat) (rest : List Char)
    (hrest : numStop rest = true) :
    parseUNum (natChars n ++ rest) = some (n, rest) := by
  by_cases h : n = 0
  · simp [natChars, h, parseUNum, hrest]
  · obtain ⟨c, t, heq, hdig, hz⟩ := decDigits_head n h
    have hall := decDigits_all_digits n
    rw [heq] at hall
    have hgrab : grabDigits (t ++ rest) = (t, rest) :=
      grabDigits_run t rest (fun x hx => hall x (by simp [hx])) hrest
    have hval : digitsVal (c :: t) = n := by
      rw [← heq, digitsVal_decDigits]
    simp [natChars, h, heq, parseUNum, hz, hdig, hgrab, hrest, hval]

/-- Parsing a rendered integer recovers it. -/
theorem parseNum_intChars (i : Int) (rest : List Char)
    (hrest : numStop rest = true) :
    parseNum (intChars i ++ rest) = some (i, rest) := by
  cases i with
  | ofNat n =>
    have h := parseUNum_natChars n rest hrest
    by_cases h0 : n = 0
    · subst h0
      simp only [intChars, natChars, if_true, List.cons_append, List.nil_append, parseNum]
      simp only [natChars, if_true, List.cons_append, List.nil_append] at h
      simp [h]
    · obtain ⟨c, t, heq, hdig, _⟩ := decDigits_head n h0
      have hnat : natChars n = c :: t := by simp [natChars, h0, heq]
      rw [hnat] at h
      have hcm : (c == '-') = false := by
        cases hbe : c == '-' with
        | false => rfl
        | true =>
          have hc : c = '-' := by
            have := hbe
            simp only [beq_iff_eq] at this
            exact this
          rw [hc] at hdig
          exact absurd hdig (by decide)
      simp only [intChars, hnat, List.cons_append, parseNum, hcm, if_false]
      rw [← List.cons_append, h]
      simp
  | negSucc m =>
    have h := parseUNum_natChars (m + 1) rest hrest
    simp only [intChars, List.cons_append, parseNum, if_true]
    rw [h]
    simp [Int.negSucc_eq]

/-! ### String escaping (`json.dumps` with `ensure_ascii=True`) -/

/-- Lower-case hexadecimal digit character for `n < 16`. -/
def hexDigit (n : Nat) : Char :=
  if n < 10 then Char.ofNat (48 + n) else Char.ofNat (87 + n)

/-- Four-digit lower-case hexadecimal rendering, as in `"\u%04x"`. -/
def hex4 (n : Nat) : List Char :=
  [hexDigit (n / 4096 % 16), hexDigit (n / 256 % 16), hexDigit (n / 16 % 16),
    hexDigit (n % 16)]

/-- CPython escaping of one character inside a dumped string: the short
escapes, `\u00xx` for remaining control characters, printable ASCII verbatim,
`\uxxxx` for other BMP characters and a surrogate pair for the rest. -/
def escapeChar (c : Char) : List Char :=
  if c = '"' then ['\\', '"']
  else if c = '\\' then ['\\', '\\']
  else if c = '\n' then ['\\', 'n']
  else if c = '\r' then ['\\', 'r']
  else if c = '\t' then ['\\', 't']
  else if c.toNat = 8 then ['\\', 'b']
  else if c.toNat = 12 then ['\\', 'f']
  else if c.toNat < 32 then '\\' :: 'u' :: hex4 c.toNat
  else if c.toNat < 127 then [c]
  else if c.toNat < 65536 then '\\' :: 'u' :: hex4 c.toNat
  else
    '\\' :: 'u' :: hex4 (55296 + (c.toNat - 65536) / 1024) ++
      '\\' :: 'u' :: hex4 (56320 + (c.toNat - 65536) % 1024)

/-- Escape every character of a string body. -/
def escList : List Char → List Char
  | [] => []
  | c :: cs => escapeChar c ++ escList cs

/-- Value of one hexadecimal digit character (both cases accepted). -/
def hexVal (c : Char) : Option Nat :=
  if 48 ≤ c.toNat ∧ c.toNat ≤ 57 then some (c.toNat - 48)
  else if 97 ≤ c.toNat ∧ c.toNat ≤ 102 then some (c.toNat - 87)
  else if 65 ≤ c.toNat ∧ c.toNat ≤ 70 then some (c.toNat - 55)
  else none

/-- Read exactly four hexadecimal digits. -/
def parseHex4 : List Char → Option (Nat × List Char)
  | c1 :: c2 :: c3 :: c4 :: rest =>
    match hexVal c1, hexVal c2, hexVal c3, hexVal c4 with
    | some x, some y, some z, some w => some (x * 4096 + y * 256 + z * 16 + w, rest)
    | _, _, _, _ => none
  | _ => none

/-- Decode a single-character escape (`\"`, `\\`, `\/`, `\b`, `\f`, `\n`,
`\r`, `\t`). -/
def escDecode (e : Char) : Option Char :=
  if e = '"' then some '"'
  else if e = '\\' then some '\\'
  else if e = '/' then some '/'
  else if e = 'b' then some (Char.ofNat 8)
  else if e = 'f' then some (Char.ofNat 12)
  else if e = 'n' then some '\n'
  else if e = 'r' then some '\r'
  else if e = 't' then some '\t'
  else none

/-- Scan a string body after the opening quote, as `py_scanstring` does in
strict mode: plain characters up to the closing quote, escapes decoded,
`\uXXXX` high/low surrogate pairs recombined, raw control characters and
lone surrogates rejected (a Lean `Char` cannot carry a lone surrogate). -/
def parseStrLoop : Nat → List Char → Option (List Char × List Char)
  | 0, _ => none
  | _ + 1, [] => none
  | f + 1, c :: cs =>
    if c = '"' then some ([], cs)
    else if c = '\\' then
      match cs with
      | [] => none
      | e :: cs2 =>
        if e = 'u' then
          match parseHex4 cs2 with
          | none => none
          | some (n, cs3) =>
            if 55296 ≤ n ∧ n ≤ 56319 then
              match cs3 with
              | b1 :: b2 :: cs4 =>
                if b1 = '\\' ∧ b2 = 'u' then
                  match parseHex4 cs4 with
                  | none => none
                  | some (m, cs5) =>
                    if 56320 ≤ m ∧ m ≤ 57343 then
                      match parseStrLoop f cs5 with
                      | some (l, rest) =>
                        some (Char.ofNat (65536 + (n - 55296) * 1024 + (m - 56320)) :: l, rest)
                      | none => none
                    else none
                else none
              | _ => none
            else if 56320 ≤ n ∧ n ≤ 57343 then none
            else
              match parseStrLoop f cs3 with
              | some (l, rest) => some (Char.ofNat n :: l, rest)
              | none => none
        else
          match escDecode e with
          | none => none
          | some d =>
            match parseStrLoop f cs2 with
            | some (l, rest) => some (d :: l, rest)
            | none => none
    else if c.toNat < 32 then none
    else
      match parseStrLoop f cs with
      | some (l, rest) => some (c :: l, rest)
      | none => none

/-- A scalar value is never a surrogate, and is below `0x110000`. -/
theorem char_code_range (c : Char) :
    c.toNat < 55296 ∨ (57343 < c.toNat ∧ c.toNat < 1114112) := by
  have h := c.valid
  have he : c.toNat = c.val.toNat := rfl
  rcases h with h | ⟨h1, h2⟩
  · left
    omega
  · right
    omega

theorem toNat_ofNat_valid (n : Nat) (h : n.isValidChar) :
    (Char.ofNat n).toNat = n := by
  simp only [Char.ofNat, h, dif_pos]
  simp [Char.ofNatAux, Char.toNat, UInt32.toNat]

/-- Hexadecimal digits decode to their value. -/
theorem hexVal_hexDigit : ∀ k, k < 16 → hexVal (hexDigit k) = some k := by
  decide

/-- Reading back four rendered hexadecimal digits. -/
theorem parseHex4_hex4 (n : Nat) (h : n < 65536) (rest : List Char) :
    parseHex4 (hex4 n ++ rest) = some (n, rest) := by
  have h1 : n / 4096 % 16 < 16 := Nat.mod_lt _ (by omega)
  have h2 : n / 256 % 16 < 16 := Nat.mod_lt _ (by omega)
  have h3 : n / 16 % 16 < 16 := Nat.mod_lt _ (by omega)
  have h4 : n % 16 < 16 := Nat.mod_lt _ (by omega)
  simp only [hex4, List.cons_append, List.nil_append, parseHex4,
    hexVal_hexDigit _ h1, hexVal_hexDigit _ h2, hexVal_hexDigit _ h3,
    hexVal_hexDigit _ h4]
  congr 2
  omega

/-- Scanning an encoded surrogate pair produces the recombined code point. -/
theorem parseStrLoop_pair (f n m : Nat) (t : List Char)
    (hn : 55296 ≤ n ∧ n ≤ 56319) (hm : 56320 ≤ m ∧ m ≤ 57343)
    (hn4 : n < 65536) (hm4 : m < 65536) :
    parseStrLoop (f + 1) ('\\' :: 'u' :: (hex4 n ++ '\\' :: 'u' :: (hex4 m ++ t))) =
      match parseStrLoop f t with
      | some (l, rest) =>
        some (Char.ofNat (65536 + (n - 55296) * 1024 + (m - 56320)) :: l, rest)
      | none => none := by
  simp only [parseStrLoop]
  simp [parseHex4_hex4 _ hn4, parseHex4_hex4 _ hm4, hn, hm]

/-- Scanning one escaped character recovers it and steps to the rest. -/
theorem parseStrLoop_escape (c : Char) (f : Nat) (t : List Char) :
    parseStrLoop (f + 1) (escapeChar c ++ t) =
      match parseStrLoop f t with
      | some (l, rest) => some (c :: l, rest)
      | none => none := by
  by_cases h1 : c = '"'
  · subst h1
    simp [escapeChar, parseStrLoop, escDecode]
  by_cases h2 : c = '\\'
  · subst h2
    simp [escapeChar, parseStrLoop, escDecode]
  by_cases h3 : c = '\n'
  · subst h3
    simp [escapeChar, parseStrLoop, escDecode, h1]
  by_cases h4 : c = '\r'
  · subst h4
    simp [escapeChar, parseStrLoop, escDecode]
  by_cases h5 : c = '\t'
  · subst h5
    simp [escapeChar, parseStrLoop, escDecode]
  by_cases h6 : c.toNat = 8
  · have hc : Char.ofNat 8 = c := by rw [← h6, Char.ofNat_toNat]
    have hesc : escapeChar c = ['\\', 'b'] := by
      simp [escapeChar, h1, h2, h3, h4, h5, h6]
    rw [hesc]
    simp only [List.cons_append, List.nil_append, parseStrLoop]
    simp [escDecode]
    rw [hc]
  by_cases h7 : c.toNat = 12
  · have hc : Char.ofNat 12 = c := by rw [← h7, Char.ofNat_toNat]
    have hesc : escapeChar c = ['\\', 'f'] := by
      simp [escapeChar, h1, h2, h3, h4, h5, h6, h7]
    rw [hesc]
    simp only [List.cons_append, List.nil_append, parseStrLoop]
    simp [escDecode]
    rw [hc]
  by_cases h8 : c.toNat < 32
  · have hesc : escapeChar c = '\\' :: 'u' :: hex4 c.toNat := by
      simp [escapeChar, h1, h2, h3, h4, h5, h6, h7, h8]
    have hlt : c.toNat < 65536 := by omega
    have hs1 : ¬(55296 ≤ c.toNat ∧ c.toNat ≤ 56319) := by omega
    have hs2 : ¬(56320 ≤ c.toNat ∧ c.toNat ≤ 57343) := by omega
    rw [hesc]
    simp [parseStrLoop, parseHex4_hex4 _ hlt, hs1, hs2, Char.ofNat_toNat]
  by_cases h9 : c.toNat < 127
  · have hesc : escapeChar c = [c] := by
      simp [escapeChar, h1, h2, h3, h4, h5, h6, h7, h8, h9]
    rw [hesc]
    have hq : ¬(c = '"') := h1
    have hb : ¬(c = '\\') := h2
    simp [parseStrLoop, hq, hb, h8]
  by_cases h10 : c.toNat < 65536
  · have hesc : escapeChar c = '\\' :: 'u' :: hex4 c.toNat := by
      simp [escapeChar, h1, h2, h3, h4, h5, h6, h7, h8, h9, h10]
    have hrange := char_code_range c
    have hs1 : ¬(55296 ≤ c.toNat ∧ c.toNat ≤ 56319) := by omega
    have hs2 : ¬(56320 ≤ c.toNat ∧ c.toNat ≤ 57343) := by omega
    rw [hesc]
    simp [parseStrLoop, parseHex4_hex4 _ h10, hs1, hs2, Char.ofNat_toNat]
  · have hesc : escapeChar c =
        '\\' :: 'u' :: hex4 (55296 + (c.toNat - 65536) / 1024) ++
          '\\' :: 'u' :: hex4 (56320 + (c.toNat - 65536) % 1024) := by
      simp [escapeChar, h1, h2, h3, h4, h5, h6, h7, h8, h9, h10]
    have hrange := char_code_range c
    have hdiv : (c.toNat - 65536) / 1024 < 1024 := by omega
    have hmod : (c.toNat - 65536) % 1024 < 1024 := Nat.mod_lt _ (by omega)
    have hn1 : 55296 + (c.toNat - 65536) / 1024 < 65536 := by omega
    have hn2 : 56320 + (c.toNat - 65536) % 1024 < 65536 := by omega
    have hs1 : 55296 ≤ 55296 + (c.toNat - 65536) / 1024 ∧
        55296 + (c.toNat - 65536) / 1024 ≤ 56319 := by omega
    have hs2 : 56320 ≤ 56320 + (c.toNat - 65536) % 1024 ∧
        56320 + (c.toNat - 65536) % 1024 ≤ 57343 := by omega
    have harg : 65536 + (55296 + (c.toNat - 65536) / 1024 - 55296) * 1024 +
        (56320 + (c.toNat - 65536) % 1024 - 56320) = c.toNat := by
      have hdm := Nat.div_add_mod (c.toNat - 65536) 1024
      omega
    have hform : escapeChar c ++ t =
        '\\' :: 'u' :: (hex4 (55296 + (c.toNat - 65536) / 1024) ++
          '\\' :: 'u' :: (hex4 (56320 + (c.toNat - 65536) % 1024) ++ t)) := by
      rw [hesc]
      simp
    rw [hform, parseStrLoop_pair f _ _ t hs1 hs2 hn1 hn2, harg, Char.ofNat_toNat]

theorem escapeChar_len (c : Char) : 1 ≤ (escapeChar c).length := by
  unfold escapeChar
  repeat' split
  all_goals simp

theorem escList_len (l : List Char) : l.length ≤ (escList l).length := by
  induction l with
  | nil => simp [escList]
  | cons c cs ih =>
    have := escapeChar_len c
    simp only [escList, List.length_append, List.length_cons]
    omega

/-- Scanning an escaped string body stops at the closing quote and recovers
the body, for any fuel beyond the body length. -/
theorem parseStrLoop_escList (l : List Char) : ∀ (f : Nat) (rest : List Char),
    l.length < f →
    parseStrLoop f (escList l ++ '"' :: rest) = some (l, rest) := by
  induction l with
  | nil =>
    intro f rest hf
    match f, hf with
    | f + 1, _ => simp [escList, parseStrLoop]
  | cons c cs ih =>
    intro f rest hf
    match f, hf with
    | f + 1, hf =>
      have hlen : cs.length < f := by
        simp only [List.length_cons] at hf
        omega
      simp only [escList, List.append_assoc]
      rw [parseStrLoop_escape, ih f rest hlen]

/-! ### `json.dumps(v, indent=2)` -/

/-- `n` space characters. -/
def sp (n : Nat) : List Char := List.replicate n ' '

mutual

/-- Render a value at indentation level `ind`, exactly as
`json.dumps(v, indent=2)` lays it out: empty containers inline, non-empty
containers opened with a newline, items at `ind + 2`, and the closer back at
`ind`. -/
def dumpsL (ind : Nat) : Json → List Char
  | .null => 'n' :: ['u', 'l', 'l']
  | .bool true => 't' :: ['r', 'u', 'e']
  | .bool false => 'f' :: ['a', 'l', 's', 'e']
  | .num i => intChars i
  | .str s => '"' :: (escList s.data ++ ['"'])
  | .arr [] => ['[', ']']
  | .arr (x :: xs) =>
    '[' :: '\n' :: (sp (ind + 2) ++ dumpsItems (ind + 2) x xs ++
      '\n' :: (sp ind ++ [']']))
  | .obj [] => [lbrace, rbrace]
  | .obj (kv :: kvs) =>
    lbrace :: '\n' :: (sp (ind + 2) ++ dumpsMembers (ind + 2) kv kvs ++
      '\n' :: (sp ind ++ [rbrace]))
termination_by v => sizeOf v
decreasing_by all_goals simp

/-- Render a non-empty run of array items, separated by `",\n" + indent`. -/
def dumpsItems (ind : Nat) : Json → List Json → List Char
  | x, [] => dumpsL ind x
  | x, y :: ys => dumpsL ind x ++ ',' :: '\n' :: (sp ind ++ dumpsItems ind y ys)
termination_by x xs => 1 + sizeOf x + sizeOf xs
decreasing_by all_goals (simp <;> omega)

/-- Render a non-empty run of object members, `"key": value`, separated by
`",\n" + indent`. -/
def dumpsMembers (ind : Nat) : String × Json → List (String × Json) → List Char
  | (k, v), [] => '"' :: (escList k.data ++ '"' :: ':' :: ' ' :: dumpsL ind v)
  | (k, v), kv :: kvs =>
    '"' :: (escList k.data ++ '"' :: ':' :: ' ' :: dumpsL ind v) ++
      ',' :: '\n' :: (sp ind ++ dumpsMembers ind kv kvs)
termination_by kv kvs => 1 + sizeOf kv + sizeOf kvs
decreasing_by all_goals (simp <;> omega)

end

/-- `json.dumps(v, indent=2)` as a string. -/
def Json.dumps (v : Json) : String := String.mk (dumpsL 0 v)

/-! ### `json.loads` on the integer fragment -/

/-- JSON whitespace (the characters `json.decoder.WHITESPACE` skips). -/
def isWs (c : Char) : Bool := c = ' ' || c = '\t' || c = '\n' || c = '\r'

/-- Drop leading JSON whitespace. -/
def skipWs : List Char → List Char
  | [] => []
  | c :: cs => if isWs c then skipWs cs else c :: cs

mutual

/-- Parse one JSON value after optional whitespace.  The fuel argument only
bounds recursion depth; `parse` supplies more than any input can use. -/
def parseVal : Nat → List Char → Option (Json × List Char)
  | 0, _ => none
  | f + 1, cs0 =>
    match skipWs cs0 with
    | [] => none
    | c :: cs =>
      if c = '"' then
        match parseStrLoop (cs.length + 1) cs with
        | some (l, rest) => some (Json.str (String.mk l), rest)
        | none => none
      else if c = '[' then
        match skipWs cs with
        | [] => none
        | d :: rest =>
          if d = ']' then some (Json.arr [], rest)
          else
            match parseItems f cs with
            | some (xs, rest2) => some (Json.arr xs, rest2)
            | none => none
      else if c = lbrace then
        match skipWs cs with
        | [] => none
        | d :: rest =>
          if d = rbrace then some (Json.obj [], rest)
          else
            match parseMembers f [] cs with
            | some (kvs, rest2) => some (Json.obj kvs, rest2)
            | none => none
      else if c = 'n' then
        match cs with
        | 'u' :: 'l' :: 'l' :: rest => some (Json.null, rest)
        | _ => none
      else if c = 't' then
        match cs with
        | 'r' :: 'u' :: 'e' :: rest => some (Json.bool true, rest)
        | _ => none
      else if c = 'f' then
        match cs with
        | 'a' :: 'l' :: 's' :: 'e' :: rest => some (Json.bool false, rest)
        | _ => none
      else
        match parseNum (c :: cs) with
        | some (i, rest) => some (Json.num i, rest)
        | none => none

/-- Parse the items of a non-empty array after the opening bracket. -/
def parseItems : Nat → List Char → Option (List Json × List Char)
  | 0, _ => none
  | f + 1, cs =>
    match parseVal f cs with
    | none => none
    | some (v, r1) =>
      match skipWs r1 with
      | ',' :: r2 =>
        match parseItems f r2 with
        | some (xs, rest) => some (v :: xs, rest)
        | none => none
      | ']' :: r2 => some ([v], r2)
      | _ => none

/-- Parse the members of a non-empty object after the opening brace,
accumulating pairs with Python dict assignment (duplicate keys: last value
wins, first position kept). -/
def parseMembers : Nat → List (String × Json) → List Char →
    Option (List (String × Json) × List Char)
  | 0, _, _ => none
  | f + 1, acc, cs =>
    match skipWs cs with
    | [] => none
    | c :: cs1 =>
      if c = '"' then
        match parseStrLoop (cs1.length + 1) cs1 with
        | some (k, r1) =>
          match skipWs r1 with
          | ':' :: r2 =>
            match parseVal f r2 with
            | some (v, r3) =>
              match skipWs r3 with
              | [] => none
              | d :: r4 =>
                if d = ',' then parseMembers f (setPair acc (String.mk k) v) r4
                else if d = rbrace then some (setPair acc (String.mk k) v, r4)
                else none
            | none => none
          | _ => none
        | none => none
      else none

end

/-- `json.loads`: parse a complete document, requiring only whitespace after
the value.  The fuel `length + 1` dominates the recursion depth of any
parseable input. -/
def parse (s : String) : Option Json :=
  match parseVal (s.data.length + 1) s.data with
  | some (v, rest) => if skipWs rest = [] then some v else none
  | none => none

mutual

/-- Fuel sufficient for `parseVal` to parse the rendering of a value. -/
def pfuel : Json → Nat
  | .null => 1
  | .bool _ => 1
  | .num _ => 1
  | .str _ => 1
  | .arr [] => 1
  | .arr (x :: xs) => 1 + pfuelItems x xs
  | .obj [] => 1
  | .obj (kv :: kvs) => 1 + pfuelMembers kv kvs
termination_by v => sizeOf v
decreasing_by all_goals simp

/-- Fuel for `parseItems` on a rendered item run. -/
def pfuelItems : Json → List Json → Nat
  | x, [] => 1 + pfuel x
  | x, y :: ys => 1 + pfuel x + pfuelItems y ys
termination_by x xs => 1 + sizeOf x + sizeOf xs
decreasing_by all_goals (simp <;> omega)

/-- Fuel for `parseMembers` on a rendered member run. -/
def pfuelMembers : String × Json → List (String × Json) → Nat
  | (_, v), [] => 1 + pfuel v
  | (_, v), kv2 :: kvs => 1 + pfuel v + pfuelMembers kv2 kvs
termination_by kv kvs => 1 + sizeOf kv + sizeOf kvs
decreasing_by all_goals (simp <;> omega)

end

/-! ### Shape facts about rendered output -/

theorem skipWs_sp (n : Nat) (cs : List Char) : skipWs (sp n ++ cs) = skipWs cs := by
  induction n with
  | zero => simp [sp]
  | succ m ih =>
    simp only [sp, List.replicate_succ, List.cons_append, skipWs]
    rw [if_pos (by decide)]
    simpa [sp] using ih

theorem skipWs_nl (cs : List Char) : skipWs ('\n' :: cs) = skipWs cs := by
  simp only [skipWs]
  rw [if_pos (by decide)]

theorem skipWs_nonWs (c : Char) (cs : List Char) (h : isWs c = false) :
    skipWs (c :: cs) = c :: cs := by
  simp only [skipWs, h]
  simp

/-- A digit character opens none of the other value productions and is not
whitespace, not a closing bracket. -/
theorem digit_head_facts (c : Char) (h : c.isDigit = true) :
    isWs c = false ∧ ¬(c = ']') ∧ ¬(c = '"') ∧ ¬(c = '[') ∧ ¬(c = lbrace) ∧
      ¬(c = 'n') ∧ ¬(c = 't') ∧ ¬(c = 'f') ∧ ¬(c = '-') := by
  refine ⟨?_, ?_, ?_, ?_, ?_, ?_, ?_, ?_, ?_⟩
  · cases hw : isWs c with
    | false => rfl
    | true =>
      simp only [isWs, Bool.or_eq_true, decide_eq_true_eq] at hw
      rcases hw with ((h1 | h2) | h3) | h4 <;>
        (subst_vars; exact absurd h (by decide))
  all_goals (intro hc; subst hc; exact absurd h (by decide))

/-- The first character of a rendered value is never whitespace and never a
closing bracket. -/
theorem dumpsL_head (ind : Nat) (v : Json) :
    ∃ c t, dumpsL ind v = c :: t ∧ isWs c = false ∧ ¬(c = ']') := by
  cases v with
  | null => exact ⟨'n', ['u', 'l', 'l'], by simp [dumpsL], by decide, by decide⟩
  | bool b =>
    cases b with
    | true => exact ⟨'t', ['r', 'u', 'e'], by simp [dumpsL], by decide, by decide⟩
    | false => exact ⟨'f', ['a', 'l', 's', 'e'], by simp [dumpsL], by decide, by decide⟩
  | str s => exact ⟨'"', escList s.data ++ ['"'], by simp [dumpsL], by decide, by decide⟩
  | arr xs =>
    cases xs with
    | nil => exact ⟨'[', [']'], by simp [dumpsL], by decide, by decide⟩
    | cons x xs =>
      exact ⟨'[', '\n' :: (sp (ind + 2) ++ dumpsItems (ind + 2) x xs ++
        '\n' :: (sp ind ++ [']'])), by simp [dumpsL], by decide, by decide⟩
  | obj kvs =>
    cases kvs with
    | nil => exact ⟨lbrace, [rbrace], by simp [dumpsL], by decide, by decide⟩
    | cons kv kvs =>
      exact ⟨lbrace, '\n' :: (sp (ind + 2) ++ dumpsMembers (ind + 2) kv kvs ++
        '\n' :: (sp ind ++ [rbrace])), by simp [dumpsL], by decide, by decide⟩
  | num i =>
    cases i with
    | negSucc m =>
      exact ⟨'-', natChars (m + 1), by simp [dumpsL, intChars], by decide, by decide⟩
    | ofNat n =>
      by_cases h0 : n = 0
      · exact ⟨'0', [], by simp [dumpsL, intChars, natChars, h0], by decide, by decide⟩
      · obtain ⟨c, t, heq, hdig, _⟩ := decDigits_head n h0
        obtain ⟨hws, hbr, _⟩ := digit_head_facts c hdig
        refine ⟨c, t, ?_, hws, hbr⟩
        simp [dumpsL, intChars, natChars, h0, heq]

/-- `skipWs` does not move past the start of a rendered value. -/
theorem skipWs_dumpsL (ind : Nat) (v : Json) (rest : List Char) :
    skipWs (dumpsL ind v ++ rest) = dumpsL ind v ++ rest := by
  obtain ⟨c, t, heq, hws, _⟩ := dumpsL_head ind v
  rw [heq, List.cons_append, skipWs_nonWs _ _ hws]

/-- The head of a rendered item run is the head of its first value. -/
theorem dumpsItems_cons (ind : Nat) (x : Json) (xs : List Json) :
    ∃ c t, dumpsItems ind x xs = c :: t ∧ isWs c = false ∧ ¬(c = ']') := by
  obtain ⟨c, t, heq, hws, hbr⟩ := dumpsL_head ind x
  cases xs with
  | nil => exact ⟨c, t, by simp [dumpsItems, heq], hws, hbr⟩
  | cons y ys =>
    refine ⟨c, t ++ ',' :: '\n' :: (sp ind ++ dumpsItems ind y ys), ?_, hws, hbr⟩
    simp [dumpsItems, heq]

theorem numStop_comma (t : List Char) : numStop (',' :: t) = true := rfl

theorem numStop_nl (t : List Char) : numStop ('\n' :: t) = true := rfl

theorem numStop_rbracket (t : List Char) : numStop (']' :: t) = true := rfl

theorem numStop_rbrace (t : List Char) : numStop (rbrace :: t) = true := rfl

/-- Every rendered integer starts with a minus sign or a digit. -/
theorem intChars_head (i : Int) :
    ∃ c t, intChars i = c :: t ∧ (c = '-' ∨ c.isDigit = true) := by
  cases i with
  | negSucc m => exact ⟨'-', natChars (m + 1), rfl, Or.inl rfl⟩
  | ofNat n =>
    by_cases h0 : n = 0
    · exact ⟨'0', [], by simp [intChars, natChars, h0], Or.inr (by decide)⟩
    · obtain ⟨c, t, heq, hdig, _⟩ := decDigits_head n h0
      exact ⟨c, t, by simp [intChars, natChars, h0, heq], Or.inr hdig⟩

theorem pfuel_pos (v : Json) : 1 ≤ pfuel v := by
  cases v with
  | arr xs => cases xs <;> simp [pfuel]
  | obj kvs => cases kvs <;> simp [pfuel]
  | _ => simp [pfuel]

theorem keyAbsent_append (k : String) (a b : List (String × Json)) :
    keyAbsent k (a ++ b) = (keyAbsent k a && keyAbsent k b) := by
  induction a with
  | nil => simp [keyAbsent]
  | cons kv rest ih =>
    obtain ⟨k2, v2⟩ := kv
    simp [keyAbsent, ih, Bool.and_assoc]

/-- Python dict assignment of a fresh key appends the pair. -/
theorem setPair_fresh (acc : List (String × Json)) (k : String) (v : Json)
    (h : keyAbsent k acc = true) : setPair acc k v = acc ++ [(k, v)] := by
  induction acc with
  | nil => simp [setPair]
  | cons kv rest ih =>
    obtain ⟨k2, v2⟩ := kv
    simp only [keyAbsent, Bool.and_eq_true, Bool.not_eq_true'] at h
    simp [setPair, h.1, ih h.2]

/-- Every key of the run is absent from the accumulator. -/
def allFresh (acc : List (String × Json)) : List (String × Json) → Bool
  | [] => true
  | (k, _) :: rest => keyAbsent k acc && allFresh acc rest

theorem allFresh_nil (l : List (String × Json)) : allFresh [] l = true := by
  induction l with
  | nil => rfl
  | cons kv rest ih =>
    obtain ⟨k2, v2⟩ := kv
    simp [allFresh, keyAbsent, ih]

theorem allFresh_snoc (acc : List (String × Json)) (k : String) (v : Json) :
    ∀ kvs, allFresh acc kvs = true → keyAbsent k kvs = true →
    allFresh (acc ++ [(k, v)]) kvs = true := by
  intro kvs
  induction kvs with
  | nil => simp [allFresh]
  | cons kv rest ih =>
    obtain ⟨k2, v2⟩ := kv
    intro h1 h2
    simp only [allFresh, Bool.and_eq_true] at h1
    simp only [keyAbsent, Bool.and_eq_true, Bool.not_eq_true'] at h2
    simp only [allFresh, Bool.and_eq_true]
    refine ⟨?_, ih h1.2 h2.2⟩
    rw [keyAbsent_append]
    simp only [h1.1, Bool.true_and, keyAbsent, Bool.and_true]
    have hne : ¬(k2 = k) := by simpa using h2.1
    simp [beq_eq_false_iff_ne, Ne.symm hne]

/-! ### The round-trip: parsing a rendering recovers the value -/

mutual

theorem rt_val : ∀ (v : Json) (ind f : Nat) (rest cs : List Char),
    Json.wf v = true → pfuel v ≤ f → numStop rest = true →
    skipWs cs = dumpsL ind v ++ rest →
    parseVal f cs = some (v, rest)
  | .null, ind, f, rest, cs, _, hf, _, hcs => by
    obtain ⟨f1, rfl⟩ : ∃ f1, f = f1 + 1 :=
      ⟨f - 1, by have := pfuel_pos Json.null; omega⟩
    have hcs2 : skipWs cs = 'n' :: ('u' :: 'l' :: 'l' :: rest) := by
      rw [hcs]
      simp [dumpsL]
    simp only [parseVal, hcs2]
    rw [if_neg (show ¬('n' = '"') by decide), if_neg (show ¬('n' = '[') by decide),
      if_neg (show ¬('n' = lbrace) by decide), if_pos trivial]
  | .bool b, ind, f, rest, cs, _, hf, _, hcs => by
    obtain ⟨f1, rfl⟩ : ∃ f1, f = f1 + 1 :=
      ⟨f - 1, by have := pfuel_pos (Json.bool b); omega⟩
    cases b with
    | true =>
      have hcs2 : skipWs cs = 't' :: ('r' :: 'u' :: 'e' :: rest) := by
        rw [hcs]
        simp [dumpsL]
      simp only [parseVal, hcs2]
      rw [if_neg (show ¬('t' = '"') by decide), if_neg (show ¬('t' = '[') by decide),
        if_neg (show ¬('t' = lbrace) by decide),
        if_neg (show ¬('t' = 'n') by decide), if_pos trivial]
    | false =>
      have hcs2 : skipWs cs = 'f' :: ('a' :: 'l' :: 's' :: 'e' :: rest) := by
        rw [hcs]
        simp [dumpsL]
      simp only [parseVal, hcs2]
      rw [if_neg (show ¬('f' = '"') by decide), if_neg (show ¬('f' = '[') by decide),
        if_neg (show ¬('f' = lbrace) by decide),
        if_neg (show ¬('f' = 'n') by decide),
        if_neg (show ¬('f' = 't') by decide), if_pos trivial]
  | .num i, ind, f, rest, cs, _, hf, hrest, hcs => by
    obtain ⟨f1, rfl⟩ : ∃ f1, f = f1 + 1 :=
      ⟨f - 1, by have := pfuel_pos (Json.num i); omega⟩
    obtain ⟨c0, t0, heq, hc0⟩ := intChars_head i
    have hfacts : isWs c0 = false ∧ ¬(c0 = '"') ∧ ¬(c0 = '[') ∧
        ¬(c0 = lbrace) ∧ ¬(c0 = 'n') ∧ ¬(c0 = 't') ∧ ¬(c0 = 'f') := by
      rcases hc0 with rfl | hdig
      · exact ⟨by decide, by decide, by decide, by decide, by decide,
          by decide, by decide⟩
      · obtain ⟨hws, _, hq, hbk, hbc, hn, ht, hf2, _⟩ := digit_head_facts c0 hdig
        exact ⟨hws, hq, hbk, hbc, hn, ht, hf2⟩
    obtain ⟨hws, hq, hbk, hbc, hn, ht, hf2⟩ := hfacts
    have hcs2 : skipWs cs = c0 :: (t0 ++ rest) := by
      rw [hcs]
      simp [dumpsL, heq]
    simp only [parseVal, hcs2]
    rw [if_neg hq, if_neg hbk, if_neg hbc, if_neg hn, if_neg ht, if_neg hf2]
    rw [show c0 :: (t0 ++ rest) = intChars i ++ rest from by rw [heq]; simp]
    rw [parseNum_intChars i rest hrest]
  | .str s, ind, f, rest, cs, _, hf, _, hcs => by
    obtain ⟨f1, rfl⟩ : ∃ f1, f = f1 + 1 :=
      ⟨f - 1, by have := pfuel_pos (Json.str s); omega⟩
    have hcs2 : skipWs cs = '"' :: (escList s.data ++ ('"' :: rest)) := by
      rw [hcs]
      simp [dumpsL]
    simp only [parseVal, hcs2]
    rw [if_pos trivial]
    have hlen : s.data.length < (escList s.data ++ ('"' :: rest)).length + 1 := by
      have := escList_len s.data
      simp only [List.length_append, List.length_cons]
      omega
    rw [parseStrLoop_escList s.data _ rest hlen]
  | .arr [], ind, f, rest, cs, _, hf, _, hcs => by
    obtain ⟨f1, rfl⟩ : ∃ f1, f = f1 + 1 :=
      ⟨f - 1, by have := pfuel_pos (Json.arr []); omega⟩
    have hcs2 : skipWs cs = '[' :: (']' :: rest) := by
      rw [hcs]
      simp [dumpsL]
    simp only [parseVal, hcs2]
    rw [if_neg (show ¬('[' = '"') by decide), if_pos trivial,
      skipWs_nonWs ']' rest (by decide)]
    rfl
  | .arr (x :: xs), ind, f, rest, cs, hwf, hf, hrest, hcs => by
    simp only [pfuel] at hf
    obtain ⟨f1, rfl⟩ : ∃ f1, f = f1 + 1 := ⟨f - 1, by omega⟩
    have hf1 : pfuelItems x xs ≤ f1 := by omega
    simp only [Json.wf] at hwf
    have hcs2 : skipWs cs = '[' :: ('\n' :: (sp (ind + 2) ++
        (dumpsItems (ind + 2) x xs ++ ('\n' :: (sp ind ++ (']' :: rest)))))) := by
      rw [hcs]
      simp [dumpsL]
    obtain ⟨c1, t1, hitems, hws1, hbr1⟩ := dumpsItems_cons (ind + 2) x xs
    have hskip : skipWs ('\n' :: (sp (ind + 2) ++
        (dumpsItems (ind + 2) x xs ++ ('\n' :: (sp ind ++ (']' :: rest)))))) =
        c1 :: (t1 ++ ('\n' :: (sp ind ++ (']' :: rest)))) := by
      rw [skipWs_nl, skipWs_sp, hitems, List.cons_append,
        skipWs_nonWs _ _ hws1]
    have harg : skipWs ('\n' :: (sp (ind + 2) ++
        (dumpsItems (ind + 2) x xs ++ ('\n' :: (sp ind ++ (']' :: rest)))))) =
        dumpsItems (ind + 2) x xs ++ ('\n' :: (sp ind ++ (']' :: rest))) := by
      rw [hskip, hitems]
      simp
    simp only [parseVal, hcs2]
    rw [if_neg (show ¬('[' = '"') by decide), if_pos trivial, hskip]
    rw [rt_items x xs (ind + 2) f1 ('\n' :: (sp ind ++ (']' :: rest))) rest _
      hwf hf1 (by rw [skipWs_nl, skipWs_sp, skipWs_nonWs ']' rest (by decide)])
      (numStop_nl _) harg]
    simp [hbr1]
  | .obj [], ind, f, rest, cs, _, hf, _, hcs => by
    obtain ⟨f1, rfl⟩ : ∃ f1, f = f1 + 1 :=
      ⟨f - 1, by have := pfuel_pos (Json.obj []); omega⟩
    have hcs2 : skipWs cs = lbrace :: (rbrace :: rest) := by
      rw [hcs]
      simp [dumpsL]
    simp only [parseVal, hcs2]
    rw [if_neg (show ¬(lbrace = '"') by decide),
      if_neg (show ¬(lbrace = '[') by decide), if_pos trivial,
      skipWs_nonWs rbrace rest (by decide)]
    rfl
  | .obj ((k, v) :: kvs), ind, f, rest, cs, hwf, hf, hrest, hcs => by
    simp only [pfuel] at hf
    obtain ⟨f1, rfl⟩ : ∃ f1, f = f1 + 1 := ⟨f - 1, by omega⟩
    have hf1 : pfuelMembers (k, v) kvs ≤ f1 := by omega
    simp only [Json.wf] at hwf
    have hcs2 : skipWs cs = lbrace :: ('\n' :: (sp (ind + 2) ++
        (dumpsMembers (ind + 2) (k, v) kvs ++
          ('\n' :: (sp ind ++ (rbrace :: rest)))))) := by
      rw [hcs]
      simp [dumpsL]
    have hmem : ∃ mt, dumpsMembers (ind + 2) (k, v) kvs = '"' :: mt := by
      cases kvs with
      | nil =>
        refine ⟨escList k.data ++ ('"' :: (':' :: (' ' :: dumpsL (ind + 2) v))), ?_⟩
        simp [dumpsMembers]
      | cons kv2 kvs2 =>
        refine ⟨escList k.data ++ ('"' :: (':' :: (' ' :: (dumpsL (ind + 2) v ++
          (',' :: ('\n' :: (sp (ind + 2) ++
            dumpsMembers (ind + 2) kv2 kvs2))))))), ?_⟩
        simp [dumpsMembers]
    obtain ⟨mt, hmt⟩ := hmem
    have hskip : skipWs ('\n' :: (sp (ind + 2) ++
        (dumpsMembers (ind + 2) (k, v) kvs ++
          ('\n' :: (sp ind ++ (rbrace :: rest)))))) =
        dumpsMembers (ind + 2) (k, v) kvs ++
          ('\n' :: (sp ind ++ (rbrace :: rest))) := by
      rw [skipWs_nl, skipWs_sp, hmt, List.cons_append,
        skipWs_nonWs _ _ (by decide)]
    have hres := rt_members (k, v) kvs (ind + 2) f1 []
      ('\n' :: (sp ind ++ (rbrace :: rest))) rest _
      hwf (by rw [allFresh_nil]) hf1
      (by rw [skipWs_nl, skipWs_sp, skipWs_nonWs rbrace rest (by decide)])
      (numStop_nl _) hskip
    simp only [parseVal, hcs2]
    rw [if_neg (show ¬(lbrace = '"') by decide),
      if_neg (show ¬(lbrace = '[') by decide), if_pos trivial, hskip, hres,
      hmt, List.cons_append]
    simp [show ¬('"' = rbrace) by decide]
termination_by v _ _ _ _ _ _ _ _ => sizeOf v
decreasing_by all_goals simp

theorem rt_items : ∀ (x : Json) (xs : List Json) (ind f : Nat)
    (tail rest cs : List Char),
    Json.wfList (x :: xs) = true → pfuelItems x xs ≤ f →
    skipWs tail = ']' :: rest → numStop tail = true →
    skipWs cs = dumpsItems ind x xs ++ tail →
    parseItems f cs = some (x :: xs, rest)
  | x, [], ind, f, tail, rest, cs, hwf, hf, htail, hnum, hcs => by
    simp only [pfuelItems] at hf
    obtain ⟨f1, rfl⟩ : ∃ f1, f = f1 + 1 := ⟨f - 1, by omega⟩
    simp only [Json.wfList, Bool.and_eq_true] at hwf
    have hx : skipWs cs = dumpsL ind x ++ tail := by
      rw [hcs]
      simp [dumpsItems]
    simp only [parseItems]
    rw [rt_val x ind f1 tail cs hwf.1 (by omega) hnum hx]
    simp [htail]
  | x, y :: ys, ind, f, tail, rest, cs, hwf, hf, htail, hnum, hcs => by
    simp only [pfuelItems] at hf
    obtain ⟨f1, rfl⟩ : ∃ f1, f = f1 + 1 := ⟨f - 1, by omega⟩
    simp only [Json.wfList, Bool.and_eq_true] at hwf
    have hx : skipWs cs = dumpsL ind x ++
        (',' :: ('\n' :: (sp ind ++ (dumpsItems ind y ys ++ tail)))) := by
      rw [hcs]
      simp [dumpsItems]
    obtain ⟨c1, t1, hitems, hws1, _⟩ := dumpsItems_cons ind y ys
    have hskip2 : skipWs ('\n' :: (sp ind ++ (dumpsItems ind y ys ++ tail))) =
        dumpsItems ind y ys ++ tail := by
      rw [skipWs_nl, skipWs_sp, hitems, List.cons_append,
        skipWs_nonWs _ _ hws1]
    have hrec := rt_items y ys ind f1 tail rest
      ('\n' :: (sp ind ++ (dumpsItems ind y ys ++ tail)))
      (by simp only [Json.wfList, Bool.and_eq_true]; exact ⟨hwf.2.1, hwf.2.2⟩)
      (by omega) htail hnum hskip2
    simp only [parseItems]
    rw [rt_val x ind f1 _ cs hwf.1 (by omega) (numStop_comma _) hx]
    simp [skipWs, isWs, hrec]
termination_by x xs _ _ _ _ _ _ _ _ _ _ => 1 + sizeOf x + sizeOf xs
decreasing_by all_goals (simp <;> omega)

theorem rt_members : ∀ (kv : String × Json) (kvs : List (String × Json))
    (ind f : Nat) (acc : List (String × Json)) (tail rest cs : List Char),
    Json.wfPairs (kv :: kvs) = true → allFresh acc (kv :: kvs) = true →
    pfuelMembers kv kvs ≤ f →
    skipWs tail = rbrace :: rest → numStop tail = true →
    skipWs cs = dumpsMembers ind kv kvs ++ tail →
    parseMembers f acc cs = some (acc ++ kv :: kvs, rest)
  | (k, v), [], ind, f, acc, tail, rest, cs, hwf, hfr, hf, htail, hnum, hcs => by
    simp only [pfuelMembers] at hf
    obtain ⟨f1, rfl⟩ : ∃ f1, f = f1 + 1 := ⟨f - 1, by omega⟩
    simp only [Json.wfPairs, Bool.and_eq_true] at hwf
    simp only [allFresh, Bool.and_eq_true] at hfr
    have hcs2 : skipWs cs = '"' :: (escList k.data ++
        ('"' :: (':' :: (' ' :: (dumpsL ind v ++ tail))))) := by
      rw [hcs]
      simp [dumpsMembers]
    simp only [parseMembers, hcs2]
    rw [if_pos trivial]
    have hlen : k.data.length <
        (escList k.data ++ ('"' :: (':' :: (' ' :: (dumpsL ind v ++ tail))))).length
          + 1 := by
      have := escList_len k.data
      simp only [List.length_append, List.length_cons]
      omega
    rw [parseStrLoop_escList k.data _ _ hlen]
    have hval : skipWs (' ' :: (dumpsL ind v ++ tail)) = dumpsL ind v ++ tail := by
      rw [show skipWs (' ' :: (dumpsL ind v ++ tail)) =
        skipWs (dumpsL ind v ++ tail) from by simp [skipWs, isWs]]
      exact skipWs_dumpsL ind v tail
    have hv := rt_val v ind f1 tail (' ' :: (dumpsL ind v ++ tail))
      hwf.1.1 (by omega) hnum hval
    have hset : setPair acc (String.mk k.data) v = acc ++ [(k, v)] := by
      rw [show String.mk k.data = k from rfl, setPair_fresh acc k v hfr.1]
    simp [skipWs, isWs, hv, htail, hset, setPair_fresh acc k v hfr.1,
      show ¬(rbrace = ',') by decide]
  | (k, v), (k2, v2) :: kvs2, ind, f, acc, tail, rest, cs, hwf, hfr, hf, htail,
      hnum, hcs => by
    simp only [pfuelMembers] at hf
    obtain ⟨f1, rfl⟩ : ∃ f1, f = f1 + 1 := ⟨f - 1, by omega⟩
    simp only [Json.wfPairs, Bool.and_eq_true] at hwf
    simp only [allFresh, Bool.and_eq_true] at hfr
    have hcs2 : skipWs cs = '"' :: (escList k.data ++
        ('"' :: (':' :: (' ' :: (dumpsL ind v ++
          (',' :: ('\n' :: (sp ind ++ (dumpsMembers ind (k2, v2) kvs2 ++ tail))))))))) := by
      rw [hcs]
      simp [dumpsMembers]
    simp only [parseMembers, hcs2]
    rw [if_pos trivial]
    have hlen : k.data.length <
        (escList k.data ++ ('"' :: (':' :: (' ' :: (dumpsL ind v ++
          (',' :: ('\n' :: (sp ind ++
            (dumpsMembers ind (k2, v2) kvs2 ++ tail))))))))).length + 1 := by
      have := escList_len k.data
      simp only [List.length_append, List.length_cons]
      omega
    rw [parseStrLoop_escList k.data _ _ hlen]
    have hval : skipWs (' ' :: (dumpsL ind v ++
        (',' :: ('\n' :: (sp ind ++ (dumpsMembers ind (k2, v2) kvs2 ++ tail)))))) =
        dumpsL ind v ++
          (',' :: ('\n' :: (sp ind ++ (dumpsMembers ind (k2, v2) kvs2 ++ tail)))) := by
      rw [show skipWs (' ' :: (dumpsL ind v ++
          (',' :: ('\n' :: (sp ind ++ (dumpsMembers ind (k2, v2) kvs2 ++ tail)))))) =
        skipWs (dumpsL ind v ++
          (',' :: ('\n' :: (sp ind ++ (dumpsMembers ind (k2, v2) kvs2 ++ tail)))))
        from by simp [skipWs, isWs]]
      exact skipWs_dumpsL ind v _
    have hv := rt_val v ind f1
      (',' :: ('\n' :: (sp ind ++ (dumpsMembers ind (k2, v2) kvs2 ++ tail))))
      (' ' :: (dumpsL ind v ++
        (',' :: ('\n' :: (sp ind ++ (dumpsMembers ind (k2, v2) kvs2 ++ tail))))))
      hwf.1.1 (by omega) (numStop_comma _) hval
    have hmem2 : ∃ mt, dumpsMembers ind (k2, v2) kvs2 = '"' :: mt := by
      cases kvs2 with
      | nil =>
        refine ⟨escList k2.data ++ ('"' :: (':' :: (' ' :: dumpsL ind v2))), ?_⟩
        simp [dumpsMembers]
      | cons kv3 kvs3 =>
        refine ⟨escList k2.data ++ ('"' :: (':' :: (' ' :: (dumpsL ind v2 ++
          (',' :: ('\n' :: (sp ind ++ dumpsMembers ind kv3 kvs3))))))), ?_⟩
        simp [dumpsMembers]
    obtain ⟨mt, hmt⟩ := hmem2
    have hskip2 : skipWs ('\n' :: (sp ind ++
        (dumpsMembers ind (k2, v2) kvs2 ++ tail))) =
        dumpsMembers ind (k2, v2) kvs2 ++ tail := by
      rw [skipWs_nl, skipWs_sp, hmt, List.cons_append,
        skipWs_nonWs _ _ (by decide)]
    have hset : setPair acc (String.mk k.data) v = acc ++ [(k, v)] := by
      rw [show String.mk k.data = k from rfl, setPair_fresh acc k v hfr.1]
    have hwf2 : Json.wfPairs ((k2, v2) :: kvs2) = true := by
      simp only [Json.wfPairs, Bool.and_eq_true]
      exact hwf.2
    have hfr2 : allFresh acc ((k2, v2) :: kvs2) = true := by
      simp only [allFresh, Bool.and_eq_true]
      exact hfr.2
    have hres := rt_members (k2, v2) kvs2 ind f1 (acc ++ [(k, v)]) tail rest
      ('\n' :: (sp ind ++ (dumpsMembers ind (k2, v2) kvs2 ++ tail)))
      hwf2 (allFresh_snoc acc k v _ hfr2 hwf.1.2) (by omega) htail hnum hskip2
    simp [skipWs, isWs, hv, hset, setPair_fresh acc k v hfr.1, hres]
termination_by kv kvs _ _ _ _ _ _ _ _ _ _ _ _ => 1 + sizeOf kv + sizeOf kvs
decreasing_by all_goals (simp <;> omega)

end

/-! ### Fuel bounds and the top-level round-trip -/

mutual

theorem pfuel_le_len : ∀ (v : Json) (ind : Nat),
    pfuel v ≤ (dumpsL ind v).length
  | .null, ind => by simp [pfuel, dumpsL]
  | .bool b, ind => by cases b <;> simp [pfuel, dumpsL]
  | .num i, ind => by
    obtain ⟨c, t, heq, _⟩ := intChars_head i
    simp [pfuel, dumpsL, heq]
  | .str s, ind => by simp [pfuel, dumpsL]
  | .arr [], ind => by simp [pfuel, dumpsL]
  | .arr (x :: xs), ind => by
    have h := pfuelItems_le x xs (ind + 2)
    simp only [pfuel, dumpsL, List.length_cons, List.length_append, sp,
      List.length_replicate]
    omega
  | .obj [], ind => by simp [pfuel, dumpsL]
  | .obj (kv :: kvs), ind => by
    have h := pfuelMembers_le kv kvs (ind + 2)
    simp only [pfuel, dumpsL, List.length_cons, List.length_append, sp,
      List.length_replicate]
    omega
termination_by v _ => sizeOf v
decreasing_by all_goals simp

theorem pfuelItems_le : ∀ (x : Json) (xs : List Json) (ind : Nat),
    pfuelItems x xs ≤ (dumpsItems ind x xs).length + 1
  | x, [], ind => by
    have h := pfuel_le_len x ind
    simp only [pfuelItems, dumpsItems]
    omega
  | x, y :: ys, ind => by
    have h1 := pfuel_le_len x ind
    have h2 := pfuelItems_le y ys ind
    simp only [pfuelItems, dumpsItems, List.length_append, List.length_cons,
      sp, List.length_replicate]
    omega
termination_by x xs _ => 1 + sizeOf x + sizeOf xs
decreasing_by all_goals (simp <;> omega)

theorem pfuelMembers_le : ∀ (kv : String × Json) (kvs : List (String × Json))
    (ind : Nat), pfuelMembers kv kvs ≤ (dumpsMembers ind kv kvs).length + 1
  | (k, v), [], ind => by
    have h := pfuel_le_len v ind
    simp only [pfuelMembers, dumpsMembers, List.length_cons, List.length_append]
    omega
  | (k, v), kv2 :: kvs2, ind => by
    have h1 := pfuel_le_len v ind
    have h2 := pfuelMembers_le kv2 kvs2 ind
    simp only [pfuelMembers, dumpsMembers, List.length_cons, List.length_append,
      sp, List.length_replicate]
    omega
termination_by kv kvs _ => 1 + sizeOf kv + sizeOf kvs
decreasing_by all_goals (simp <;> omega)

end

/-- Re-parsing the pretty-printed rendering of a well-formed value recovers
it exactly: `json.loads(json.dumps(v, indent=2)) == v`. -/
theorem dumps_parse (v : Json) (h : Json.wf v = true) :
    parse (Json.dumps v) = some v := by
  have hfuel : pfuel v ≤ (dumpsL 0 v).length + 1 := by
    have := pfuel_le_len v 0
    omega
  have hskip : skipWs (dumpsL 0 v) = dumpsL 0 v ++ [] := by
    have h1 := skipWs_dumpsL 0 v []
    simpa using h1
  have hval := rt_val v 0 ((dumpsL 0 v).length + 1) [] (dumpsL 0 v)
    h hfuel rfl hskip
  simp only [parse, Json.dumps]
  rw [hval]
  rfl

/-! ### The parser only produces well-formed values -/

theorem keyAbsent_setPair (k2 k : String) (v : Json)
    (hne : (k == k2) = false) :
    ∀ kvs, keyAbsent k2 kvs = true → keyAbsent k2 (setPair kvs k v) = true := by
  intro kvs
  induction kvs with
  | nil =>
    intro _
    simp [setPair, keyAbsent, hne]
  | cons kv rest ih =>
    obtain ⟨k3, v3⟩ := kv
    intro h
    simp only [keyAbsent, Bool.and_eq_true] at h
    by_cases heq : (k3 == k) = true
    · simp [setPair, heq, keyAbsent, h.1, h.2]
    · simp only [setPair, heq]
      simp only [Bool.not_eq_true] at heq
      simp [setPair, heq, keyAbsent, h.1, ih h.2]

/-- Python dict assignment preserves duplicate-free keys and value
well-formedness. -/
theorem wfPairs_setPair (k : String) (v : Json) (hv : Json.wf v = true) :
    ∀ kvs, Json.wfPairs kvs = true → Json.wfPairs (setPair kvs k v) = true := by
  intro kvs
  induction kvs with
  | nil =>
    intro _
    simp [setPair, Json.wfPairs, keyAbsent, hv]
  | cons kv rest ih =>
    obtain ⟨k2, v2⟩ := kv
    intro h
    simp only [Json.wfPairs, Bool.and_eq_true] at h
    by_cases heq : (k2 == k) = true
    · have hk : k2 = k := by simpa using heq
      subst hk
      simp [setPair, Json.wfPairs, hv, h.1.2, h.2]
    · simp only [Bool.not_eq_true] at heq
      have hsym : (k == k2) = false := by
        simp only [beq_eq_false_iff_ne] at heq ⊢
        exact Ne.symm heq
      simp only [setPair, heq, if_false]
      simp [Json.wfPairs, h.1.1, ih h.2,
        keyAbsent_setPair k2 k v hsym rest h.1.2]

theorem parse_wf_all : ∀ f : Nat,
    (∀ cs v r, parseVal f cs = some (v, r) → Json.wf v = true) ∧
    (∀ cs xs r, parseItems f cs = some (xs, r) → Json.wfList xs = true) ∧
    (∀ acc cs kvs r, Json.wfPairs acc = true →
      parseMembers f acc cs = some (kvs, r) → Json.wfPairs kvs = true) := by
  intro f
  induction f with
  | zero =>
    refine ⟨?_, ?_, ?_⟩
    · intro cs v r h
      simp [parseVal] at h
    · intro cs xs r h
      simp [parseItems] at h
    · intro acc cs kvs r _ h
      simp [parseMembers] at h
  | succ f ih =>
    obtain ⟨ihv, ihi, ihm⟩ := ih
    refine ⟨?_, ?_, ?_⟩
    · intro cs v r h
      simp only [parseVal] at h
      split at h
      · exact absurd h (by simp)
      · split at h
        · split at h
          · simp only [Option.some.injEq, Prod.mk.injEq] at h
            obtain ⟨rfl, rfl⟩ := h
            simp [Json.wf]
          · exact absurd h (by simp)
        · split at h
          · split at h
            · exact absurd h (by simp)
            · split at h
              · simp only [Option.some.injEq, Prod.mk.injEq] at h
                obtain ⟨rfl, rfl⟩ := h
                simp [Json.wf, Json.wfList]
              · split at h
                · simp only [Option.some.injEq, Prod.mk.injEq] at h
                  obtain ⟨rfl, rfl⟩ := h
                  simp only [Json.wf]
                  exact ihi _ _ _ (by assumption)
                · exact absurd h (by simp)
          · split at h
            · split at h
              · exact absurd h (by simp)
              · split at h
                · simp only [Option.some.injEq, Prod.mk.injEq] at h
                  obtain ⟨rfl, rfl⟩ := h
                  simp [Json.wf, Json.wfPairs]
                · split at h
                  · simp only [Option.some.injEq, Prod.mk.injEq] at h
                    obtain ⟨rfl, rfl⟩ := h
                    simp only [Json.wf]
                    exact ihm [] _ _ _ (by simp [Json.wfPairs]) (by assumption)
                  · exact absurd h (by simp)
            · split at h
              · split at h
                · simp only [Option.some.injEq, Prod.mk.injEq] at h
                  obtain ⟨rfl, rfl⟩ := h
                  simp [Json.wf]
                · exact absurd h (by simp)
              · split at h
                · split at h
                  · simp only [Option.some.injEq, Prod.mk.injEq] at h
                    obtain ⟨rfl, rfl⟩ := h
                    simp [Json.wf]
                  · exact absurd h (by simp)
                · split at h
                  · split at h
                    · simp only [Option.some.injEq, Prod.mk.injEq] at h
                      obtain ⟨rfl, rfl⟩ := h
                      simp [Json.wf]
                    · exact absurd h (by simp)
                  · split at h
                    · simp only [Option.some.injEq, Prod.mk.injEq] at h
                      obtain ⟨rfl, rfl⟩ := h
                      simp [Json.wf]
                    · exact absurd h (by simp)
    · intro cs xs r h
      simp only [parseItems] at h
      split at h
      · exact absurd h (by simp)
      · split at h
        · split at h
          · simp only [Option.some.injEq, Prod.mk.injEq] at h
            obtain ⟨rfl, rfl⟩ := h
            simp only [Json.wfList, Bool.and_eq_true]
            exact ⟨ihv _ _ _ (by assumption), ihi _ _ _ (by assumption)⟩
          · exact absurd h (by simp)
        · simp only [Option.some.injEq, Prod.mk.injEq] at h
          obtain ⟨rfl, rfl⟩ := h
          simp only [Json.wfList, Bool.and_eq_true]
          exact ⟨ihv _ _ _ (by assumption), by simp [Json.wfList]⟩
        · exact absurd h (by simp)
    · intro acc cs kvs r hacc h
      simp only [parseMembers] at h
      split at h
      · exact absurd h (by simp)
      · split at h
        · split at h
          · split at h
            · split at h
              · split at h
                · exact absurd h (by simp)
                · split at h
                  · refine ihm _ _ _ _ ?_ h
                    refine wfPairs_setPair _ _ (ihv _ _ _ (by assumption)) _ hacc
                  · split at h
                    · simp only [Option.some.injEq, Prod.mk.injEq] at h
                      obtain ⟨rfl, rfl⟩ := h
                      exact wfPairs_setPair _ _ (ihv _ _ _ (by assumption)) _ hacc
                    · exact absurd h (by simp)
              · exact absurd h (by simp)
            · exact absurd h (by simp)
          · exact absurd h (by simp)
        · exact absurd h (by simp)

/-- `json.loads` only produces values whose objects have duplicate-free
keys. -/
theorem parse_wf (s : String) (v : Json) (h : parse s = some v) :
    Json.wf v = true := by
  simp only [parse] at h
  split at h
  · split at h
    · simp only [Option.some.injEq] at h
      subst h
      exact (parse_wf_all _).1 _ _ _ (by assumption)
    · exact absurd h (by simp)
  · exact absurd h (by simp)

/-- In a duplicate-free pair list, a looked-up value is well-formed. -/
theorem wfPairs_lookup (k : String) (v : Json) :
    ∀ kvs, Json.wfPairs kvs = true → List.lookup k kvs = some v →
    Json.wf v = true := by
  intro kvs
  induction kvs with
  | nil =>
    intro _ h
    simp [List.lookup] at h
  | cons kv rest ih =>
    obtain ⟨k2, v2⟩ := kv
    intro hwf h
    simp only [Json.wfPairs, Bool.and_eq_true] at hwf
    simp only [List.lookup] at h
    by_cases heq : (k == k2) = true
    · simp only [heq, Option.some.injEq] at h
      subst h
      exact hwf.1.1
    · simp only [Bool.not_eq_true] at heq
      simp only [heq] at h
      exact ih hwf.2 h

/-! ### The request adapter (`make_request`, server.py lines 25-40) -/

/-- Outcome of the single outbound HTTP GET: a transport-level exception
(DNS failure, refused connection, timeout) carrying its `str(e)`, or a
response with a status code and a body. -/
inductive Transport where
  | fail : String → Transport
  | response : Nat → String → Transport

/-- One adapter call, observed from outside: the headers of the outbound
request and the returned value. -/
structure AdapterCall where
  headers : List (String × String)
  result : Json

/-- Stands for `str(e)` of the `httpx.HTTPStatusError` raised by
`raise_for_status`; no claim depends on the exact text, only on the
`Error` wrapping. -/
def httpStatusErrorMsg (status : Nat) : String :=
  "HTTP status error " ++ toString status

/-- Stands for `str(e)` of the `json.JSONDecodeError` raised by
`response.json()` on an unparseable body. -/
def jsonDecodeErrorMsg (body : String) : String :=
  "invalid JSON body: " ++ body

def FINANCIAL_DATASETS_API_BASE : String := "https://api.financialdatasets.ai"

/-- `make_request(url)`: resolve the API key from the environment at call
time (`env` is the value of `os.environ.get("FINANCIAL_DATASETS_API_KEY")`
after `load_dotenv()`; the walrus `if api_key := ...` drops both a missing
and an empty key), attach `X-API-KEY` when present, perform the GET
(outcome given by the oracle `t`), let `raise_for_status` raise on every
non-2xx status, parse the body as JSON, and fold every raised exception
into `{"Error": str(e)}`. -/
def make_request (env : Option String) (t : Transport) : AdapterCall :=
  let headers : List (String × String) :=
    match env with
    | some api_key => if api_key = "" then [] else [("X-API-KEY", api_key)]
    | none => []
  match t with
  | Transport.fail msg => ⟨headers, Json.obj [("Error", Json.str msg)]⟩
  | Transport.response status body =>
    if 200 ≤ status ∧ status ≤ 299 then
      match parse body with
      | some j => ⟨headers, j⟩
      | none => ⟨headers, Json.obj [("Error", Json.str (jsonDecodeErrorMsg body))]⟩
    else ⟨headers, Json.obj [("Error", Json.str (httpStatusErrorMsg status))]⟩

/-! ### The tools (server.py lines 43-366)

Each tool takes the environment value, an oracle giving the transport
outcome of a GET on each URL, and its parameters.  `Except.error` marks a
Python exception escaping the tool body. -/

def get_income_statements_url (ticker period : String) (limit : Int) : String :=
  FINANCIAL_DATASETS_API_BASE ++ "/financials/income-statements/?ticker=" ++
    ticker ++ "&period=" ++ period ++ "&limit=" ++ toString limit

def get_income_statements_default_period : String := "annual"

def get_income_statements_default_limit : Int := 4

/-- `get_income_statements` (lines 43-72). -/
def get_income_statements (env : Option String) (oracle : String → Transport)
    (ticker period : String) (limit : Int) : Except String String :=
  let url := get_income_statements_url ticker period limit
  let data := (make_request env (oracle url)).result
  if data.falsy then
    Except.ok "Unable to fetch income statements or no income statements found."
  else
    match pyGet data "income_statements" (Json.arr []) with
    | Except.error e => Except.error e
    | Except.ok income_statements =>
      if income_statements.falsy then
        Except.ok "Unable to fetch income statements or no income statements found."
      else Except.ok (Json.dumps income_statements)

def get_balance_sheets_url (ticker period : String) (limit : Int) : String :=
  FINANCIAL_DATASETS_API_BASE ++ "/financials/balance-sheets/?ticker=" ++
    ticker ++ "&period=" ++ period ++ "&limit=" ++ toString limit

/-- `get_balance_sheets` (lines 75-104). -/
def get_balance_sheets (env : Option String) (oracle : String → Transport)
    (ticker period : String) (limit : Int) : Except String String :=
  let url := get_balance_sheets_url ticker period limit
  let data := (make_request env (oracle url)).result
  if data.falsy then
    Except.ok "Unable to fetch balance sheets or no balance sheets found."
  else
    match pyGet data "balance_sheets" (Json.arr []) with
    | Except.error e => Except.error e
    | Except.ok balance_sheets =>
      if balance_sheets.falsy then
        Except.ok "Unable to fetch balance sheets or no balance sheets found."
      else Except.ok (Json.dumps balance_sheets)

def get_cash_flow_statements_url (ticker period : String) (limit : Int) : String :=
  FINANCIAL_DATASETS_API_BASE ++ "/financials/cash-flow-statements/?ticker=" ++
    ticker ++ "&period=" ++ period ++ "&limit=" ++ toString limit

/-- `get_cash_flow_statements` (lines 107-136). -/
def get_cash_flow_statements (env : Option String) (oracle : String → Transport)
    (ticker period : String) (limit : Int) : Except String String :=
  let url := get_cash_flow_statements_url ticker period limit
  let data := (make_request env (oracle url)).result
  if data.falsy then
    Except.ok "Unable to fetch cash flow statements or no cash flow statements found."
  else
    match pyGet data "cash_flow_statements" (Json.arr []) with
    | Except.error e => Except.error e
    | Except.ok cash_flow_statements =>
      if cash_flow_statements.falsy then
        Except.ok "Unable to fetch cash flow statements or no cash flow statements found."
      else Except.ok (Json.dumps cash_flow_statements)

def get_current_stock_price_url (ticker : String) : String :=
  FINANCIAL_DATASETS_API_BASE ++ "/prices/snapshot/?ticker=" ++ ticker

/-- `get_current_stock_price` (lines 139-162). -/
def get_current_stock_price (env : Option String) (oracle : String → Transport)
    (ticker : String) : Except String String :=
  let url := get_current_stock_price_url ticker
  let data := (make_request env (oracle url)).result
  if data.falsy then
    Except.ok "Unable to fetch current price or no current price found."
  else
    match pyGet data "snapshot" (Json.obj []) with
    | Except.error e => Except.error e
    | Except.ok snapshot =>
      if snapshot.falsy then
        Except.ok "Unable to fetch current price or no current price found."
      else Except.ok (Json.dumps snapshot)

def get_historical_stock_prices_url (ticker start_date end_date interval : String)
    (interval_multiplier : Int) : String :=
  FINANCIAL_DATASETS_API_BASE ++ "/prices/?ticker=" ++ ticker ++ "&interval=" ++
    interval ++ "&interval_multiplier=" ++ toString interval_multiplier ++
    "&start_date=" ++ start_date ++ "&end_date=" ++ end_date

def get_historical_stock_prices_default_interval : String := "day"

def get_historical_stock_prices_default_interval_multiplier : Int := 1

/-- `get_historical_stock_prices` (lines 165-198). -/
def get_historical_stock_prices (env : Option String)
    (oracle : String → Transport) (ticker start_date end_date interval : String)
    (interval_multiplier : Int) : Except String String :=
  let url := get_historical_stock_prices_url ticker start_date end_date interval
    interval_multiplier
  let data := (make_request env (oracle url)).result
  if data.falsy then
    Except.ok "Unable to fetch prices or no prices found."
  else
    match pyGet data "prices" (Json.arr []) with
    | Except.error e => Except.error e
    | Except.ok prices =>
      if prices.falsy then
        Except.ok "Unable to fetch prices or no prices found."
      else Except.ok (Json.dumps prices)

def get_company_news_url (ticker : String) : String :=
  FINANCIAL_DATASETS_API_BASE ++ "/news/?ticker=" ++ ticker

/-- `get_company_news` (lines 201-222). -/
def get_company_news (env : Option String) (oracle : String → Transport)
    (ticker : String) : Except String String :=
  let url := get_company_news_url ticker
  let data := (make_request env (oracle url)).result
  if data.falsy then
    Except.ok "Unable to fetch news or no news found."
  else
    match pyGet data "news" (Json.arr []) with
    | Except.error e => Except.error e
    | Except.ok news =>
      if news.falsy then
        Except.ok "Unable to fetch news or no news found."
      else Except.ok (Json.dumps news)

def get_available_crypto_tickers_url : String :=
  FINANCIAL_DATASETS_API_BASE ++ "/crypto/prices/tickers"

/-- `get_available_crypto_tickers` (lines 225-242).  Note: unlike every
other tool, there is no emptiness check on the extracted `tickers` list. -/
def get_available_crypto_tickers (env : Option String)
    (oracle : String → Transport) : Except String String :=
  let url := get_available_crypto_tickers_url
  let data := (make_request env (oracle url)).result
  if data.falsy then
    Except.ok "Unable to fetch available crypto tickers or no available crypto tickers found."
  else
    match pyGet data "tickers" (Json.arr []) with
    | Except.error e => Except.error e
    | Except.ok tickers => Except.ok (Json.dumps tickers)

def get_crypto_prices_url (ticker start_date end_date interval : String)
    (interval_multiplier : Int) : String :=
  FINANCIAL_DATASETS_API_BASE ++ "/crypto/prices/?ticker=" ++ ticker ++
    "&interval=" ++ interval ++ "&interval_multiplier=" ++
    toString interval_multiplier ++ "&start_date=" ++ start_date ++
    "&end_date=" ++ end_date

/-- `get_crypto_prices` (lines 245-272). -/
def get_crypto_prices (env : Option String) (oracle : String → Transport)
    (ticker start_date end_date interval : String)
    (interval_multiplier : Int) : Except String String :=
  let url := get_crypto_prices_url ticker start_date end_date interval
    interval_multiplier
  let data := (make_request env (oracle url)).result
  if data.falsy then
    Except.ok "Unable to fetch prices or no prices found."
  else
    match pyGet data "prices" (Json.arr []) with
    | Except.error e => Except.error e
    | Except.ok prices =>
      if prices.falsy then
        Except.ok "Unable to fetch prices or no prices found."
      else Except.ok (Json.dumps prices)

def get_historical_crypto_prices_url (ticker start_date end_date interval : String)
    (interval_multiplier : Int) : String :=
  FINANCIAL_DATASETS_API_BASE ++ "/crypto/prices/?ticker=" ++ ticker ++
    "&interval=" ++ interval ++ "&interval_multiplier=" ++
    toString interval_multiplier ++ "&start_date=" ++ start_date ++
    "&end_date=" ++ end_date

/-- `get_historical_crypto_prices` (lines 275-308); its body repeats
`get_crypto_prices` verbatim in the source. -/
def get_historical_crypto_prices (env : Option String)
    (oracle : String → Transport) (ticker start_date end_date interval : String)
    (interval_multiplier : Int) : Except String String :=
  let url := get_historical_crypto_prices_url ticker start_date end_date interval
    interval_multiplier
  let data := (make_request env (oracle url)).result
  if data.falsy then
    Except.ok "Unable to fetch prices or no prices found."
  else
    match pyGet data "prices" (Json.arr []) with
    | Except.error e => Except.error e
    | Except.ok prices =>
      if prices.falsy then
        Except.ok "Unable to fetch prices or no prices found."
      else Except.ok (Json.dumps prices)

def get_current_crypto_price_url (ticker : String) : String :=
  FINANCIAL_DATASETS_API_BASE ++ "/crypto/prices/snapshot/?ticker=" ++ ticker

/-- `get_current_crypto_price` (lines 311-334). -/
def get_current_crypto_price (env : Option String) (oracle : String → Transport)
    (ticker : String) : Except String String :=
  let url := get_current_crypto_price_url ticker
  let data := (make_request env (oracle url)).result
  if data.falsy then
    Except.ok "Unable to fetch current price or no current price found."
  else
    match pyGet data "snapshot" (Json.obj []) with
    | Except.error e => Except.error e
    | Except.ok snapshot =>
      if snapshot.falsy then
        Except.ok "Unable to fetch current price or no current price found."
      else Except.ok (Json.dumps snapshot)

/-- The URL of `get_sec_filings` (lines 351-353): `filing_type` is appended
only when truthy (`if filing_type:` skips both `None` and `""`). -/
def get_sec_filings_url (ticker : String) (limit : Int)
    (filing_type : Option String) : String :=
  let url := FINANCIAL_DATASETS_API_BASE ++ "/filings/?ticker=" ++ ticker ++
    "&limit=" ++ toString limit
  match filing_type with
  | some ft => if ft = "" then url else url ++ "&filing_type=" ++ ft
  | none => url

def get_sec_filings_default_limit : Int := 10

/-- `get_sec_filings` (lines 337-366).  Note: unlike every other tool there
is no `if not data` guard before `data.get("filings", [])`. -/
def get_sec_filings (env : Option String) (oracle : String → Transport)
    (ticker : String) (limit : Int) (filing_type : Option String) :
    Except String String :=
  let url := get_sec_filings_url ticker limit filing_type
  let data := (make_request env (oracle url)).result
  match pyGet data "filings" (Json.arr []) with
  | Except.error e => Except.error e
  | Except.ok filings =>
    if filings.falsy then
      Except.ok "Unable to fetch SEC filings or no SEC filings found."
    else Except.ok (Json.dumps filings)

/-! ### The shared fetch-check-extract-format shape -/

/-- The response-processing shape shared by nine tools: fall back when the
data is falsy, extract the field with `.get(field, default)`, fall back when
the extracted value is falsy, else pretty-print it. -/
def renderField (data : Json) (field fallback : String) (default : Json) :
    Except String String :=
  if data.falsy then Except.ok fallback
  else
    match pyGet data field default with
    | Except.error e => Except.error e
    | Except.ok v =>
      if v.falsy then Except.ok fallback else Except.ok (Json.dumps v)

/-- The `get_available_crypto_tickers` shape: no emptiness check on the
extracted value. -/
def renderFieldNoEmptyCheck (data : Json) (field fallback : String)
    (default : Json) : Except String String :=
  if data.falsy then Except.ok fallback
  else
    match pyGet data field default with
    | Except.error e => Except.error e
    | Except.ok v => Except.ok (Json.dumps v)

/-- The `get_sec_filings` shape: no falsy-data guard before `.get`. -/
def renderFieldNoGuard (data : Json) (field fallback : String)
    (default : Json) : Except String String :=
  match pyGet data field default with
  | Except.error e => Except.error e
  | Except.ok v =>
    if v.falsy then Except.ok fallback else Except.ok (Json.dumps v)

theorem renderField_lookup_ok (kvs : List (String × Json))
    (field fb : String) (default v : Json)
    (hl : List.lookup field kvs = some v) (hv : v.falsy = false) :
    renderField (Json.obj kvs) field fb default = Except.ok (Json.dumps v) := by
  have hne : Json.falsy (Json.obj kvs) = false := by
    cases kvs with
    | nil => simp [List.lookup] at hl
    | cons kv rest => simp [Json.falsy]
  simp [renderField, hne, pyGet, hl, hv]

theorem renderField_fallback (kvs : List (String × Json))
    (field fb : String) (default : Json) (hd : default.falsy = true)
    (h : List.lookup field kvs = none ∨
      ∃ v, List.lookup field kvs = some v ∧ v.falsy = true) :
    renderField (Json.obj kvs) field fb default = Except.ok fb := by
  by_cases hne : Json.falsy (Json.obj kvs) = true
  · simp [renderField, hne]
  · simp only [Bool.not_eq_true] at hne
    rcases h with h | ⟨v, hl, hv⟩
    · simp [renderField, hne, pyGet, h, hd]
    · simp [renderField, hne, pyGet, hl, hv]

theorem falsy_obj_cons (kv : String × Json) (kvs : List (String × Json)) :
    (Json.obj (kv :: kvs)).falsy = false := by
  simp [Json.falsy]

theorem renderField_error_map (field fb : String) (default : Json)
    (msg : String) (hf : (field == "Error") = false)
    (hd : default.falsy = true) :
    renderField (Json.obj [("Error", Json.str msg)]) field fb default =
      Except.ok fb := by
  simp [renderField, falsy_obj_cons, pyGet, List.lookup, hf, hd]

theorem renderFieldNoGuard_error_map (field fb : String) (default : Json)
    (msg : String) (hf : (field == "Error") = false)
    (hd : default.falsy = true) :
    renderFieldNoGuard (Json.obj [("Error", Json.str msg)]) field fb default =
      Except.ok fb := by
  simp [renderFieldNoGuard, pyGet, List.lookup, hf, hd]

theorem renderFieldNoGuard_fallback (kvs : List (String × Json))
    (field fb : String) (default : Json) (hd : default.falsy = true)
    (h : List.lookup field kvs = none ∨
      ∃ v, List.lookup field kvs = some v ∧ v.falsy = true) :
    renderFieldNoGuard (Json.obj kvs) field fb default = Except.ok fb := by
  rcases h with h | ⟨v, hl, hv⟩
  · simp [renderFieldNoGuard, pyGet, h, hd]
  · simp [renderFieldNoGuard, pyGet, hl, hv]

theorem renderFieldNoGuard_lookup_ok (kvs : List (String × Json))
    (field fb : String) (default v : Json)
    (hl : List.lookup field kvs = some v) (hv : v.falsy = false) :
    renderFieldNoGuard (Json.obj kvs) field fb default =
      Except.ok (Json.dumps v) := by
  simp [renderFieldNoGuard, pyGet, hl, hv]

/-- The nine standard tools are instances of `renderField` (definitional). -/
theorem get_income_statements_eq (env : Option String)
    (oracle : String → Transport) (ticker period : String) (limit : Int) :
    get_income_statements env oracle ticker period limit =
      renderField
        ((make_request env (oracle (get_income_statements_url ticker period limit))).result)
        "income_statements"
        "Unable to fetch income statements or no income statements found."
        (Json.arr []) := rfl

theorem get_balance_sheets_eq (env : Option String)
    (oracle : String → Transport) (ticker period : String) (limit : Int) :
    get_balance_sheets env oracle ticker period limit =
      renderField
        ((make_request env (oracle (get_balance_sheets_url ticker period limit))).result)
        "balance_sheets"
        "Unable to fetch balance sheets or no balance sheets found."
        (Json.arr []) := rfl

theorem get_cash_flow_statements_eq (env : Option String)
    (oracle : String → Transport) (ticker period : String) (limit : Int) :
    get_cash_flow_statements env oracle ticker period limit =
      renderField
        ((make_request env (oracle (get_cash_flow_statements_url ticker period limit))).result)
        "cash_flow_statements"
        "Unable to fetch cash flow statements or no cash flow statements found."
        (Json.arr []) := rfl

theorem get_current_stock_price_eq (env : Option String)
    (oracle : String → Transport) (ticker : String) :
    get_current_stock_price env oracle ticker =
      renderField
        ((make_request env (oracle (get_current_stock_price_url ticker))).result)
        "snapshot"
        "Unable to fetch current price or no current price found."
        (Json.obj []) := rfl

theorem get_historical_stock_prices_eq (env : Option String)
    (oracle : String → Transport) (ticker start_date end_date interval : String)
    (interval_multiplier : Int) :
    get_historical_stock_prices env oracle ticker start_date end_date interval
        interval_multiplier =
      renderField
        ((make_request env (oracle (get_historical_stock_prices_url ticker
          start_date end_date interval interval_multiplier))).result)
        "prices" "Unable to fetch prices or no prices found."
        (Json.arr []) := rfl

theorem get_company_news_eq (env : Option String)
    (oracle : String → Transport) (ticker : String) :
    get_company_news env oracle ticker =
      renderField
        ((make_request env (oracle (get_company_news_url ticker))).result)
        "news" "Unable to fetch news or no news found."
        (Json.arr []) := rfl

theorem get_available_crypto_tickers_eq (env : Option String)
    (oracle : String → Transport) :
    get_available_crypto_tickers env oracle =
      renderFieldNoEmptyCheck
        ((make_request env (oracle get_available_crypto_tickers_url)).result)
        "tickers"
        "Unable to fetch available crypto tickers or no available crypto tickers found."
        (Json.arr []) := rfl

theorem get_crypto_prices_eq (env : Option String)
    (oracle : String → Transport) (ticker start_date end_date interval : String)
    (interval_multiplier : Int) :
    get_crypto_prices env oracle ticker start_date end_date interval
        interval_multiplier =
      renderField
        ((make_request env (oracle (get_crypto_prices_url ticker start_date
          end_date interval interval_multiplier))).result)
        "prices" "Unable to fetch prices or no prices found."
        (Json.arr []) := rfl

theorem get_historical_crypto_prices_eq (env : Option String)
    (oracle : String → Transport) (ticker start_date end_date interval : String)
    (interval_multiplier : Int) :
    get_historical_crypto_prices env oracle ticker start_date end_date interval
        interval_multiplier =
      renderField
        ((make_request env (oracle (get_historical_crypto_prices_url ticker
          start_date end_date interval interval_multiplier))).result)
        "prices" "Unable to fetch prices or no prices found."
        (Json.arr []) := rfl

theorem get_current_crypto_price_eq (env : Option String)
    (oracle : String → Transport) (ticker : String) :
    get_current_crypto_price env oracle ticker =
      renderField
        ((make_request env (oracle (get_current_crypto_price_url ticker))).result)
        "snapshot"
        "Unable to fetch current price or no current price found."
        (Json.obj []) := rfl

theorem get_sec_filings_eq (env : Option String)
    (oracle : String → Transport) (ticker : String) (limit : Int)
    (filing_type : Option String) :
    get_sec_filings env oracle ticker limit filing_type =
      renderFieldNoGuard
        ((make_request env (oracle (get_sec_filings_url ticker limit filing_type))).result)
        "filings"
        "Unable to fetch SEC filings or no SEC filings found."
        (Json.arr []) := rfl

/-! ### Substring checking for URL claims -/

/-- `sub` occurs as a contiguous run inside `l`. -/
def hasSub : List Char → List Char → Bool
  | [], sub => sub.isEmpty
  | c :: t, sub => sub.isPrefixOf (c :: t) || hasSub t sub

/-- `sub` occurs as a contiguous substring of `s`. -/
def strHas (s sub : String) : Bool := hasSub s.data sub.data

theorem strData_append (a b : String) : (a ++ b).data = a.data ++ b.data := rfl

theorem hasSub_append_right (a b sub : List Char)
    (h : hasSub b sub = true) : hasSub (a ++ b) sub = true := by
  induction a with
  | nil => simpa using h
  | cons c t ih =>
    simp only [List.cons_append, hasSub, Bool.or_eq_true]
    exact Or.inr ih

/-! ### Observable behaviours shared by the tools -/

/-- On a successful 2xx response whose envelope holds a non-falsy value at
`field`, the tool prints exactly that value, and re-parsing the output
yields the value back. -/
def ToolRoundtrip (run : (String → Transport) → Except String String)
    (url field : String) : Prop :=
  ∀ (oracle : String → Transport) (body : String)
    (kvs : List (String × Json)) (v : Json),
    oracle url = Transport.response 200 body →
    parse body = some (Json.obj kvs) →
    List.lookup field kvs = some v →
    Json.falsy v = false →
    run oracle = Except.ok (Json.dumps v) ∧ parse (Json.dumps v) = some v

/-- On a successful 2xx response whose envelope misses `field` or holds a
falsy value there, the tool answers its fixed fallback sentence. -/
def ToolFallback (run : (String → Transport) → Except String String)
    (url field fallback : String) : Prop :=
  ∀ (oracle : String → Transport) (body : String)
    (kvs : List (String × Json)),
    oracle url = Transport.response 200 body →
    parse body = some (Json.obj kvs) →
    (List.lookup field kvs = none ∨
      ∃ v, List.lookup field kvs = some v ∧ v.falsy = true) →
    run oracle = Except.ok fallback

theorem make_request_success (env : Option String) (body : String)
    (j : Json) (h : parse body = some j) :
    (make_request env (Transport.response 200 body)).result = j := by
  simp [make_request, h]

theorem toolRoundtrip_renderField (env : Option String)
    (url field fb : String) (default : Json) :
    ToolRoundtrip
      (fun oracle => renderField ((make_request env (oracle url)).result)
        field fb default) url field := by
  intro oracle body kvs v h1 h2 h3 h4
  have hmr : (make_request env (oracle url)).result = Json.obj kvs := by
    rw [h1]
    exact make_request_success env body _ h2
  have hwfv : Json.wf v = true := by
    have hwf := parse_wf body _ h2
    simp only [Json.wf] at hwf
    exact wfPairs_lookup field v kvs hwf h3
  constructor
  · show renderField ((make_request env (oracle url)).result) field fb default = _
    rw [hmr]
    exact renderField_lookup_ok kvs field fb default v h3 h4
  · exact dumps_parse v hwfv

theorem renderFieldNoEmptyCheck_lookup_ok (kvs : List (String × Json))
    (field fb : String) (default v : Json)
    (hl : List.lookup field kvs = some v) :
    renderFieldNoEmptyCheck (Json.obj kvs) field fb default =
      Except.ok (Json.dumps v) := by
  have hne : Json.falsy (Json.obj kvs) = false := by
    cases kvs with
    | nil => simp [List.lookup] at hl
    | cons kv rest => simp [Json.falsy]
  simp [renderFieldNoEmptyCheck, hne, pyGet, hl]

theorem toolRoundtrip_noEmptyCheck (env : Option String)
    (url field fb : String) (default : Json) :
    ToolRoundtrip
      (fun oracle => renderFieldNoEmptyCheck
        ((make_request env (oracle url)).result) field fb default) url field := by
  intro oracle body kvs v h1 h2 h3 h4
  have hmr : (make_request env (oracle url)).result = Json.obj kvs := by
    rw [h1]
    exact make_request_success env body _ h2
  have hwfv : Json.wf v = true := by
    have hwf := parse_wf body _ h2
    simp only [Json.wf] at hwf
    exact wfPairs_lookup field v kvs hwf h3
  constructor
  · show renderFieldNoEmptyCheck ((make_request env (oracle url)).result)
      field fb default = _
    rw [hmr]
    exact renderFieldNoEmptyCheck_lookup_ok kvs field fb default v h3
  · exact dumps_parse v hwfv

theorem toolRoundtrip_noGuard (env : Option String)
    (url field fb : String) (default : Json) :
    ToolRoundtrip
      (fun oracle => renderFieldNoGuard
        ((make_request env (oracle url)).result) field fb default) url field := by
  intro oracle body kvs v h1 h2 h3 h4
  have hmr : (make_request env (oracle url)).result = Json.obj kvs := by
    rw [h1]
    exact make_request_success env body _ h2
  have hwfv : Json.wf v = true := by
    have hwf := parse_wf body _ h2
    simp only [Json.wf] at hwf
    exact wfPairs_lookup field v kvs hwf h3
  constructor
  · show renderFieldNoGuard ((make_request env (oracle url)).result)
      field fb default = _
    rw [hmr]
    exact renderFieldNoGuard_lookup_ok kvs field fb default v h3 h4
  · exact dumps_parse v hwfv

theorem toolFallback_renderField (env : Option String)
    (url field fb : String) (default : Json) (hd : default.falsy = true) :
    ToolFallback
      (fun oracle => renderField ((make_request env (oracle url)).result)
        field fb default) url field fb := by
  intro oracle body kvs h1 h2 h3
  have hmr : (make_request env (oracle url)).result = Json.obj kvs := by
    rw [h1]
    exact make_request_success env body _ h2
  show renderField ((make_request env (oracle url)).result) field fb default = _
  rw [hmr]
  exact renderField_fallback kvs field fb default hd h3

theorem toolFallback_noGuard (env : Option String)
    (url field fb : String) (default : Json) (hd : default.falsy = true) :
    ToolFallback
      (fun oracle => renderFieldNoGuard
        ((make_request env (oracle url)).result) field fb default) url field fb := by
  intro oracle body kvs h1 h2 h3
  have hmr : (make_request env (oracle url)).result = Json.obj kvs := by
    rw [h1]
    exact make_request_success env body _ h2
  show renderFieldNoGuard ((make_request env (oracle url)).result)
    field fb default = _
  rw [hmr]
  exact renderFieldNoGuard_fallback kvs field fb default hd h3

/-! ### Transport failure behaves like an empty success (claim C4 support) -/

theorem make_request_fail (env : Option String) (msg : String) :
    (make_request env (Transport.fail msg)).result =
      Json.obj [("Error", Json.str msg)] := by
  cases env with
  | none => rfl
  | some k => rfl

/-- The canonical successful-but-empty envelope for a tool: the expected
field holding that tool's empty default. -/
def emptyEnvelope (field : String) (default : Json) : String :=
  Json.dumps (Json.obj [(field, default)])

theorem parse_emptyEnvelope (field : String) (default : Json)
    (hwfd : Json.wf default = true) :
    parse (emptyEnvelope field default) = some (Json.obj [(field, default)]) := by
  apply dumps_parse
  simp [Json.wf, Json.wfPairs, keyAbsent, hwfd]

theorem renderField_after_fail (env : Option String) (msg field fb : String)
    (default : Json) (hf : (field == "Error") = false)
    (hd : default.falsy = true) :
    renderField ((make_request env (Transport.fail msg)).result) field fb default
      = Except.ok fb := by
  rw [make_request_fail]
  exact renderField_error_map field fb default msg hf hd

theorem renderField_after_empty (env : Option String) (field fb : String)
    (default : Json) (hd : default.falsy = true)
    (hwfd : Json.wf default = true) :
    renderField
      ((make_request env (Transport.response 200 (emptyEnvelope field default))).result)
      field fb default = Except.ok fb := by
  rw [make_request_success env _ _ (parse_emptyEnvelope field default hwfd)]
  apply renderField_fallback _ _ _ _ hd
  exact Or.inr ⟨default, by simp [List.lookup], hd⟩

theorem renderFieldNoGuard_after_fail (env : Option String)
    (msg field fb : String) (default : Json) (hf : (field == "Error") = false)
    (hd : default.falsy = true) :
    renderFieldNoGuard ((make_request env (Transport.fail msg)).result)
      field fb default = Except.ok fb := by
  rw [make_request_fail]
  exact renderFieldNoGuard_error_map field fb default msg hf hd

theorem renderFieldNoGuard_after_empty (env : Option String) (field fb : String)
    (default : Json) (hd : default.falsy = true)
    (hwfd : Json.wf default = true) :
    renderFieldNoGuard
      ((make_request env (Transport.response 200 (emptyEnvelope field default))).result)
      field fb default = Except.ok fb := by
  rw [make_request_success env _ _ (parse_emptyEnvelope field default hwfd)]
  apply renderFieldNoGuard_fallback _ _ _ _ hd
  exact Or.inr ⟨default, by simp [List.lookup], hd⟩

theorem renderFieldNoEmptyCheck_after_fail (env : Option String)
    (msg field fb : String) (default : Json) (hf : (field == "Error") = false) :
    renderFieldNoEmptyCheck ((make_request env (Transport.fail msg)).result)
      field fb default = Except.ok (Json.dumps default) := by
  rw [make_request_fail]
  simp [renderFieldNoEmptyCheck, falsy_obj_cons, pyGet, List.lookup, hf]

theorem renderFieldNoEmptyCheck_after_empty (env : Option String)
    (field fb : String) (default : Json) (hwfd : Json.wf default = true) :
    renderFieldNoEmptyCheck
      ((make_request env (Transport.response 200 (emptyEnvelope field default))).result)
      field fb default = Except.ok (Json.dumps default) := by
  rw [make_request_success env _ _ (parse_emptyEnvelope field default hwfd)]
  simp [renderFieldNoEmptyCheck, falsy_obj_cons, pyGet, List.lookup]

/-! ### The claims -/

/-- Claim C1: for every URL (every environment and transport outcome), the
request adapter `make_request` never raises to its caller: it always returns
a value, which is either the response body parsed as JSON, returned verbatim
(on a 2xx response with a parseable body), or a one-key error mapping
`{"Error": <message>}` wrapping the raised exception's textual description
(transport failure, non-success status via `raise_for_status`, or an
unparseable body). -/
theorem c1_adapter_never_raises :
    ∀ (env : Option String) (t : Transport),
      (∃ status body j, t = Transport.response status body ∧
        200 ≤ status ∧ status ≤ 299 ∧ parse body = some j ∧
        (make_request env t).result = j) ∨
      (∃ msg, (make_request env t).result =
        Json.obj [("Error", Json.str msg)]) := by
  intro env t
  cases t with
  | fail msg => exact Or.inr ⟨msg, make_request_fail env msg⟩
  | response st body =>
    by_cases h : 200 ≤ st ∧ st ≤ 299
    · cases hp : parse body with
      | some j =>
        exact Or.inl ⟨st, body, j, rfl, h.1, h.2, hp, by simp [make_request, h, hp]⟩
      | none =>
        exact Or.inr ⟨jsonDecodeErrorMsg body, by simp [make_request, h, hp]⟩
    · exact Or.inr ⟨httpStatusErrorMsg st, by simp [make_request, h]⟩

/-- Claim C2: for every tool and every successful upstream response whose
envelope holds a non-empty (non-falsy) value at the tool's expected field,
the tool's output is that value pretty-printed with 2-space indentation, and
parsing the output back yields exactly the field's value: the print/parse
round trip is the identity on the extracted value. -/
theorem c2_pretty_print_roundtrip :
    (∀ (env : Option String) (ticker period : String) (limit : Int),
      ToolRoundtrip (fun oracle => get_income_statements env oracle ticker period limit)
        (get_income_statements_url ticker period limit) "income_statements") ∧
    (∀ (env : Option String) (ticker period : String) (limit : Int),
      ToolRoundtrip (fun oracle => get_balance_sheets env oracle ticker period limit)
        (get_balance_sheets_url ticker period limit) "balance_sheets") ∧
    (∀ (env : Option String) (ticker period : String) (limit : Int),
      ToolRoundtrip (fun oracle => get_cash_flow_statements env oracle ticker period limit)
        (get_cash_flow_statements_url ticker period limit) "cash_flow_statements") ∧
    (∀ (env : Option String) (ticker : String),
      ToolRoundtrip (fun oracle => get_current_stock_price env oracle ticker)
        (get_current_stock_price_url ticker) "snapshot") ∧
    (∀ (env : Option String) (ticker start_date end_date interval : String)
        (interval_multiplier : Int),
      ToolRoundtrip (fun oracle => get_historical_stock_prices env oracle ticker
          start_date end_date interval interval_multiplier)
        (get_historical_stock_prices_url ticker start_date end_date interval
          interval_multiplier) "prices") ∧
    (∀ (env : Option String) (ticker : String),
      ToolRoundtrip (fun oracle => get_company_news env oracle ticker)
        (get_company_news_url ticker) "news") ∧
    (∀ (env : Option String),
      ToolRoundtrip (fun oracle => get_available_crypto_tickers env oracle)
        get_available_crypto_tickers_url "tickers") ∧
    (∀ (env : Option String) (ticker start_date end_date interval : String)
        (interval_multiplier : Int),
      ToolRoundtrip (fun oracle => get_crypto_prices env oracle ticker
          start_date end_date interval interval_multiplier)
        (get_crypto_prices_url ticker start_date end_date interval
          interval_multiplier) "prices") ∧
    (∀ (env : Option String) (ticker start_date end_date interval : String)
        (interval_multiplier : Int),
      ToolRoundtrip (fun oracle => get_historical_crypto_prices env oracle ticker
          start_date end_date interval interval_multiplier)
        (get_historical_crypto_prices_url ticker start_date end_date interval
          interval_multiplier) "prices") ∧
    (∀ (env : Option String) (ticker : String),
      ToolRoundtrip (fun oracle => get_current_crypto_price env oracle ticker)
        (get_current_crypto_price_url ticker) "snapshot") ∧
    (∀ (env : Option String) (ticker : String) (limit : Int)
        (filing_type : Option String),
      ToolRoundtrip (fun oracle => get_sec_filings env oracle ticker limit filing_type)
        (get_sec_filings_url ticker limit filing_type) "filings") := by
  refine ⟨?_, ?_, ?_, ?_, ?_, ?_, ?_, ?_, ?_, ?_, ?_⟩
  · intro env ticker period limit
    exact toolRoundtrip_renderField env _ _ _ _
  · intro env ticker period limit
    exact toolRoundtrip_renderField env _ _ _ _
  · intro env ticker period limit
    exact toolRoundtrip_renderField env _ _ _ _
  · intro env ticker
    exact toolRoundtrip_renderField env _ _ _ _
  · intro env ticker start_date end_date interval interval_multiplier
    exact toolRoundtrip_renderField env _ _ _ _
  · intro env ticker
    exact toolRoundtrip_renderField env _ _ _ _
  · intro env
    exact toolRoundtrip_noEmptyCheck env _ _ _ _
  · intro env ticker start_date end_date interval interval_multiplier
    exact toolRoundtrip_renderField env _ _ _ _
  · intro env ticker start_date end_date interval interval_multiplier
    exact toolRoundtrip_renderField env _ _ _ _
  · intro env ticker
    exact toolRoundtrip_renderField env _ _ _ _
  · intro env ticker limit filing_type
    exact toolRoundtrip_noGuard env _ _ _ _

/-- Claim C2 witness: a concrete run of `get_income_statements` on the
envelope containing one income statement. -/
theorem c2_witness :
    get_income_statements none
        (fun _ => Transport.response 200 "\x7b\"income_statements\": [1]\x7d")
        "AAPL" "annual" 4 =
      Except.ok (Json.dumps (Json.arr [Json.num 1])) ∧
    parse (Json.dumps (Json.arr [Json.num 1])) = some (Json.arr [Json.num 1]) :=
  c2_pretty_print_roundtrip.1 none "AAPL" "annual" 4
    (fun _ => Transport.response 200 "\x7b\"income_statements\": [1]\x7d")
    "\x7b\"income_statements\": [1]\x7d"
    [("income_statements", Json.arr [Json.num 1])]
    (Json.arr [Json.num 1])
    rfl (by rfl) (by rfl) (by rfl)

/-- Claim C3 counterexample: on the upstream response `{}` — an envelope in
which the ticker list is certainly missing — `get_available_crypto_tickers`
returns its fallback sentence, not the empty JSON array `"[]"` the claim
promises (the `if not data` guard fires before the `tickers` extraction). -/
theorem c3_counterexample :
    get_available_crypto_tickers none
        (fun _ => Transport.response 200 "\x7b\x7d") =
      Except.ok "Unable to fetch available crypto tickers or no available crypto tickers found." ∧
    ("Unable to fetch available crypto tickers or no available crypto tickers found." : String)
      ≠ "[]" := by
  constructor
  · rfl
  · decide

theorem dumps_arr_nil : Json.dumps (Json.arr []) = "[]" := by
  have h : dumpsL 0 (Json.arr []) = ['[', ']'] := by simp [dumpsL]
  simp only [Json.dumps, h]

/-- Claim C3 (amended): on a successful upstream response whose envelope
misses the expected field or holds an empty value there, every tool except
`get_available_crypto_tickers` answers exactly its fixed fallback sentence;
`get_available_crypto_tickers` answers the empty JSON array `"[]"` provided
the envelope itself is non-empty, and falls back to its own fixed sentence
on the empty envelope `{}` (its `if not data` guard fires first). -/
theorem c3_fallback_amended :
    (∀ (env : Option String) (ticker period : String) (limit : Int),
      ToolFallback (fun oracle => get_income_statements env oracle ticker period limit)
        (get_income_statements_url ticker period limit) "income_statements"
        "Unable to fetch income statements or no income statements found.") ∧
    (∀ (env : Option String) (ticker period : String) (limit : Int),
      ToolFallback (fun oracle => get_balance_sheets env oracle ticker period limit)
        (get_balance_sheets_url ticker period limit) "balance_sheets"
        "Unable to fetch balance sheets or no balance sheets found.") ∧
    (∀ (env : Option String) (ticker period : String) (limit : Int),
      ToolFallback (fun oracle => get_cash_flow_statements env oracle ticker period limit)
        (get_cash_flow_statements_url ticker period limit) "cash_flow_statements"
        "Unable to fetch cash flow statements or no cash flow statements found.") ∧
    (∀ (env : Option String) (ticker : String),
      ToolFallback (fun oracle => get_current_stock_price env oracle ticker)
        (get_current_stock_price_url ticker) "snapshot"
        "Unable to fetch current price or no current price found.") ∧
    (∀ (env : Option String) (ticker start_date end_date interval : String)
        (interval_multiplier : Int),
      ToolFallback (fun oracle => get_historical_stock_prices env oracle ticker
          start_date end_date interval interval_multiplier)
        (get_historical_stock_prices_url ticker start_date end_date interval
          interval_multiplier) "prices"
        "Unable to fetch prices or no prices found.") ∧
    (∀ (env : Option String) (ticker : String),
      ToolFallback (fun oracle => get_company_news env oracle ticker)
        (get_company_news_url ticker) "news"
        "Unable to fetch news or no news found.") ∧
    (∀ (env : Option String) (ticker start_date end_date interval : String)
        (interval_multiplier : Int),
      ToolFallback (fun oracle => get_crypto_prices env oracle ticker
          start_date end_date interval interval_multiplier)
        (get_crypto_prices_url ticker start_date end_date interval
          interval_multiplier) "prices"
        "Unable to fetch prices or no prices found.") ∧
    (∀ (env : Option String) (ticker start_date end_date interval : String)
        (interval_multiplier : Int),
      ToolFallback (fun oracle => get_historical_crypto_prices env oracle ticker
          start_date end_date interval interval_multiplier)
        (get_historical_crypto_prices_url ticker start_date end_date interval
          interval_multiplier) "prices"
        "Unable to fetch prices or no prices found.") ∧
    (∀ (env : Option String) (ticker : String),
      ToolFallback (fun oracle => get_current_crypto_price env oracle ticker)
        (get_current_crypto_price_url ticker) "snapshot"
        "Unable to fetch current price or no current price found.") ∧
    (∀ (env : Option String) (ticker : String) (limit : Int)
        (filing_type : Option String),
      ToolFallback (fun oracle => get_sec_filings env oracle ticker limit filing_type)
        (get_sec_filings_url ticker limit filing_type) "filings"
        "Unable to fetch SEC filings or no SEC filings found.") ∧
    (∀ (env : Option String) (oracle : String → Transport) (body : String)
        (kvs : List (String × Json)),
      oracle get_available_crypto_tickers_url = Transport.response 200 body →
      parse body = some (Json.obj kvs) →
      ((kvs ≠ [] →
        (List.lookup "tickers" kvs = none ∨
          List.lookup "tickers" kvs = some (Json.arr [])) →
        get_available_crypto_tickers env oracle = Except.ok "[]") ∧
       (kvs = [] →
        get_available_crypto_tickers env oracle = Except.ok
          "Unable to fetch available crypto tickers or no available crypto tickers found."))) := by
  refine ⟨?_, ?_, ?_, ?_, ?_, ?_, ?_, ?_, ?_, ?_, ?_⟩
  · intro env ticker period limit
    exact toolFallback_renderField env _ _ _ _ rfl
  · intro env ticker period limit
    exact toolFallback_renderField env _ _ _ _ rfl
  · intro env ticker period limit
    exact toolFallback_renderField env _ _ _ _ rfl
  · intro env ticker
    exact toolFallback_renderField env _ _ _ _ rfl
  · intro env ticker start_date end_date interval interval_multiplier
    exact toolFallback_renderField env _ _ _ _ rfl
  · intro env ticker
    exact toolFallback_renderField env _ _ _ _ rfl
  · intro env ticker start_date end_date interval interval_multiplier
    exact toolFallback_renderField env _ _ _ _ rfl
  · intro env ticker start_date end_date interval interval_multiplier
    exact toolFallback_renderField env _ _ _ _ rfl
  · intro env ticker
    exact toolFallback_renderField env _ _ _ _ rfl
  · intro env ticker limit filing_type
    exact toolFallback_noGuard env _ _ _ _ rfl
  · intro env oracle body kvs h1 h2
    have hmr : (make_request env (oracle get_available_crypto_tickers_url)).result
        = Json.obj kvs := by
      rw [h1]
      exact make_request_success env body _ h2
    constructor
    · intro hne hl
      rw [get_available_crypto_tickers_eq, hmr]
      have hfal : Json.falsy (Json.obj kvs) = false := by
        cases kvs with
        | nil => exact absurd rfl hne
        | cons kv rest => exact falsy_obj_cons kv rest
      rcases hl with hl | hl
      · simp [renderFieldNoEmptyCheck, hfal, pyGet, hl, dumps_arr_nil]
      · simp [renderFieldNoEmptyCheck, hfal, pyGet, hl, dumps_arr_nil]
    · intro hkv
      subst hkv
      rw [get_available_crypto_tickers_eq, hmr]
      simp [renderFieldNoEmptyCheck, Json.falsy]

/-- Claim C3 witness: `get_income_statements` on the envelope
`{"foo": 1}` — the expected field is missing — answers its fallback
sentence. -/
theorem c3_witness :
    get_income_statements none
        (fun _ => Transport.response 200 "\x7b\"foo\": 1\x7d")
        "AAPL" "annual" 4 =
      Except.ok "Unable to fetch income statements or no income statements found." :=
  c3_fallback_amended.1 none "AAPL" "annual" 4
    (fun _ => Transport.response 200 "\x7b\"foo\": 1\x7d")
    "\x7b\"foo\": 1\x7d"
    [("foo", Json.num 1)]
    rfl (by rfl) (Or.inl (by rfl))

/-- Claim C4: for every tool, a transport failure (the adapter returning its
error mapping `{"Error": <message>}`) produces exactly the same output as a
successful-but-empty upstream result: the error mapping never contains the
tool's target field, so extraction falls back to the empty default and the
same response fires — including `get_sec_filings`, which applies
`.get("filings", ...)` to the adapter result without any guard. -/
theorem c4_failure_equals_empty :
    (∀ (env : Option String) (msg ticker period : String) (limit : Int),
      get_income_statements env (fun _ => Transport.fail msg) ticker period limit =
      get_income_statements env
        (fun _ => Transport.response 200 (emptyEnvelope "income_statements" (Json.arr [])))
        ticker period limit) ∧
    (∀ (env : Option String) (msg ticker period : String) (limit : Int),
      get_balance_sheets env (fun _ => Transport.fail msg) ticker period limit =
      get_balance_sheets env
        (fun _ => Transport.response 200 (emptyEnvelope "balance_sheets" (Json.arr [])))
        ticker period limit) ∧
    (∀ (env : Option String) (msg ticker period : String) (limit : Int),
      get_cash_flow_statements env (fun _ => Transport.fail msg) ticker period limit =
      get_cash_flow_statements env
        (fun _ => Transport.response 200 (emptyEnvelope "cash_flow_statements" (Json.arr [])))
        ticker period limit) ∧
    (∀ (env : Option String) (msg ticker : String),
      get_current_stock_price env (fun _ => Transport.fail msg) ticker =
      get_current_stock_price env
        (fun _ => Transport.response 200 (emptyEnvelope "snapshot" (Json.obj [])))
        ticker) ∧
    (∀ (env : Option String) (msg ticker start_date end_date interval : String)
        (interval_multiplier : Int),
      get_historical_stock_prices env (fun _ => Transport.fail msg) ticker
          start_date end_date interval interval_multiplier =
      get_historical_stock_prices env
        (fun _ => Transport.response 200 (emptyEnvelope "prices" (Json.arr [])))
        ticker start_date end_date interval interval_multiplier) ∧
    (∀ (env : Option String) (msg ticker : String),
      get_company_news env (fun _ => Transport.fail msg) ticker =
      get_company_news env
        (fun _ => Transport.response 200 (emptyEnvelope "news" (Json.arr [])))
        ticker) ∧
    (∀ (env : Option String) (msg : String),
      get_available_crypto_tickers env (fun _ => Transport.fail msg) =
      get_available_crypto_tickers env
        (fun _ => Transport.response 200 (emptyEnvelope "tickers" (Json.arr [])))) ∧
    (∀ (env : Option String) (msg ticker start_date end_date interval : String)
        (interval_multiplier : Int),
      get_crypto_prices env (fun _ => Transport.fail msg) ticker
          start_date end_date interval interval_multiplier =
      get_crypto_prices env
        (fun _ => Transport.response 200 (emptyEnvelope "prices" (Json.arr [])))
        ticker start_date end_date interval interval_multiplier) ∧
    (∀ (env : Option String) (msg ticker start_date end_date interval : String)
        (interval_multiplier : Int),
      get_historical_crypto_prices env (fun _ => Transport.fail msg) ticker
          start_date end_date interval interval_multiplier =
      get_historical_crypto_prices env
        (fun _ => Transport.response 200 (emptyEnvelope "prices" (Json.arr [])))
        ticker start_date end_date interval interval_multiplier) ∧
    (∀ (env : Option String) (msg ticker : String),
      get_current_crypto_price env (fun _ => Transport.fail msg) ticker =
      get_current_crypto_price env
        (fun _ => Transport.response 200 (emptyEnvelope "snapshot" (Json.obj [])))
        ticker) ∧
    (∀ (env : Option String) (msg ticker : String) (limit : Int)
        (filing_type : Option String),
      get_sec_filings env (fun _ => Transport.fail msg) ticker limit filing_type =
      get_sec_filings env
        (fun _ => Transport.response 200 (emptyEnvelope "filings" (Json.arr [])))
        ticker limit filing_type) := by
  refine ⟨?_, ?_, ?_, ?_, ?_, ?_, ?_, ?_, ?_, ?_, ?_⟩
  · intro env msg ticker period limit
    simp only [get_income_statements_eq]
    rw [renderField_after_fail env msg "income_statements" _ (Json.arr []) rfl rfl,
      renderField_after_empty env "income_statements" _ (Json.arr []) rfl rfl]
  · intro env msg ticker period limit
    simp only [get_balance_sheets_eq]
    rw [renderField_after_fail env msg "balance_sheets" _ (Json.arr []) rfl rfl,
      renderField_after_empty env "balance_sheets" _ (Json.arr []) rfl rfl]
  · intro env msg ticker period limit
    simp only [get_cash_flow_statements_eq]
    rw [renderField_after_fail env msg "cash_flow_statements" _ (Json.arr []) rfl rfl,
      renderField_after_empty env "cash_flow_statements" _ (Json.arr []) rfl rfl]
  · intro env msg ticker
    simp only [get_current_stock_price_eq]
    rw [renderField_after_fail env msg "snapshot" _ (Json.obj []) rfl rfl,
      renderField_after_empty env "snapshot" _ (Json.obj []) rfl rfl]
  · intro env msg ticker start_date end_date interval interval_multiplier
    simp only [get_historical_stock_prices_eq]
    rw [renderField_after_fail env msg "prices" _ (Json.arr []) rfl rfl,
      renderField_after_empty env "prices" _ (Json.arr []) rfl rfl]
  · intro env msg ticker
    simp only [get_company_news_eq]
    rw [renderField_after_fail env msg "news" _ (Json.arr []) rfl rfl,
      renderField_after_empty env "news" _ (Json.arr []) rfl rfl]
  · intro env msg
    simp only [get_available_crypto_tickers_eq]
    rw [renderFieldNoEmptyCheck_after_fail env msg "tickers" _ (Json.arr []) rfl,
      renderFieldNoEmptyCheck_after_empty env "tickers" _ (Json.arr []) rfl]
  · intro env msg ticker start_date end_date interval interval_multiplier
    simp only [get_crypto_prices_eq]
    rw [renderField_after_fail env msg "prices" _ (Json.arr []) rfl rfl,
      renderField_after_empty env "prices" _ (Json.arr []) rfl rfl]
  · intro env msg ticker start_date end_date interval interval_multiplier
    simp only [get_historical_crypto_prices_eq]
    rw [renderField_after_fail env msg "prices" _ (Json.arr []) rfl rfl,
      renderField_after_empty env "prices" _ (Json.arr []) rfl rfl]
  · intro env msg ticker
    simp only [get_current_crypto_price_eq]
    rw [renderField_after_fail env msg "snapshot" _ (Json.obj []) rfl rfl,
      renderField_after_empty env "snapshot" _ (Json.obj []) rfl rfl]
  · intro env msg ticker limit filing_type
    simp only [get_sec_filings_eq]
    rw [renderFieldNoGuard_after_fail env msg "filings" _ (Json.arr []) rfl rfl,
      renderFieldNoGuard_after_empty env "filings" _ (Json.arr []) rfl rfl]

/-- Claim C5: for ticker "AAPL", start 2020-01-01, end 2020-12-31, interval
"day" and multiplier 1, the historical-stock-prices URL carries all five
parameters verbatim in its query string. -/
theorem c5_historical_url_params :
    strHas (get_historical_stock_prices_url "AAPL" "2020-01-01" "2020-12-31" "day" 1)
      "ticker=AAPL" = true ∧
    strHas (get_historical_stock_prices_url "AAPL" "2020-01-01" "2020-12-31" "day" 1)
      "start_date=2020-01-01" = true ∧
    strHas (get_historical_stock_prices_url "AAPL" "2020-01-01" "2020-12-31" "day" 1)
      "end_date=2020-12-31" = true ∧
    strHas (get_historical_stock_prices_url "AAPL" "2020-01-01" "2020-12-31" "day" 1)
      "interval=day" = true ∧
    strHas (get_historical_stock_prices_url "AAPL" "2020-01-01" "2020-12-31" "day" 1)
      "interval_multiplier=1" = true := by
  refine ⟨?_, ?_, ?_, ?_, ?_⟩ <;> rfl

/-- Claim C6: calling `get_income_statements` with only the ticker supplied
uses the defaults `period="annual"` and `limit=4`, so for every ticker the
requested URL carries `period=annual` and `limit=4` in its query string. -/
theorem c6_income_defaults :
    ∀ ticker : String,
      strHas (get_income_statements_url ticker
        get_income_statements_default_period get_income_statements_default_limit)
        "period=annual" = true ∧
      strHas (get_income_statements_url ticker
        get_income_statements_default_period get_income_statements_default_limit)
        "limit=4" = true := by
  intro ticker
  constructor <;>
  · simp only [get_income_statements_url, get_income_statements_default_period,
      get_income_statements_default_limit, strHas, strData_append,
      List.append_assoc]
    apply hasSub_append_right
    apply hasSub_append_right
    apply hasSub_append_right
    decide

/-- Claim C7 counterexample: the URL is built by raw string interpolation,
so a call with `filing_type` omitted but a ticker that itself carries the
text (e.g. `"AAPL&filing_type=10-K"`) produces a URL that does contain a
`filing_type` query parameter, refuting "for every call ... the URL contains
no filing_type query parameter". -/
theorem c7_counterexample :
    strHas (get_sec_filings_url "AAPL&filing_type=10-K"
      get_sec_filings_default_limit none) "filing_type=10-K" = true := by
  rfl

/-- Claim C7 (amended): the tool itself never appends a `filing_type`
parameter when the argument is omitted — the URL is exactly
`{base}/filings/?ticker={ticker}&limit={limit}`, which contains no
`filing_type` text unless the caller-supplied ticker carries it (for the
ordinary ticker "AAPL" it does not); when `filing_type` is supplied
non-empty, the URL is that same string with `&filing_type={value}`
appended after ticker and limit. -/
theorem c7_filing_type_amended :
    (∀ (ticker : String) (limit : Int),
      get_sec_filings_url ticker limit none =
        FINANCIAL_DATASETS_API_BASE ++ "/filings/?ticker=" ++ ticker ++
          "&limit=" ++ toString limit) ∧
    strHas (get_sec_filings_url "AAPL" get_sec_filings_default_limit none)
      "filing_type" = false ∧
    (∀ (ticker : String) (limit : Int) (ft : String), ¬(ft = "") →
      get_sec_filings_url ticker limit (some ft) =
        get_sec_filings_url ticker limit none ++ "&filing_type=" ++ ft) := by
  refine ⟨?_, ?_, ?_⟩
  · intro ticker limit
    rfl
  · rfl
  · intro ticker limit ft hft
    simp [get_sec_filings_url, hft]

/-- Claim C7 witness: supplying `filing_type="10-K"` appends it after
ticker and limit. -/
theorem c7_witness :
    get_sec_filings_url "AAPL" 10 (some "10-K") =
      get_sec_filings_url "AAPL" 10 none ++ "&filing_type=" ++ "10-K" :=
  c7_filing_type_amended.2.2 "AAPL" 10 "10-K" (by decide)

/-- Claim C8: the API key is resolved from the environment at each call:
whenever the environment variable holds a non-empty value, the outbound
request carries the header `X-API-KEY` with exactly that value; when it is
unset, no header is sent (the call's headers are empty). -/
theorem c8_api_key_header :
    ∀ t : Transport,
      (∀ k : String, ¬(k = "") →
        (make_request (some k) t).headers = [("X-API-KEY", k)]) ∧
      (make_request none t).headers = [] := by
  intro t
  constructor
  · intro k hk
    cases t with
    | fail msg => simp [make_request, hk]
    | response st body =>
      simp only [make_request]
      split
      · split <;> simp [hk]
      · simp [hk]
  · cases t with
    | fail msg => rfl
    | response st body =>
      simp only [make_request]
      split
      · split <;> rfl
      · rfl

/-- Claim C8 witness: a concrete call with the key set, and one with it
unset. -/
theorem c8_witness :
    (make_request (some "secret-key") (Transport.fail "boom")).headers =
      [("X-API-KEY", "secret-key")] ∧
    (make_request none (Transport.fail "boom")).headers = [] :=
  ⟨(c8_api_key_header (Transport.fail "boom")).1 "secret-key" (by decide),
    (c8_api_key_header (Transport.fail "boom")).2⟩

/-- Claim C9: `get_crypto_prices` and `get_historical_crypto_prices` are
observationally equivalent: for every parameter combination they build the
same URL, and for every environment and transport oracle they return
identical outputs. -/
theorem c9_crypto_tools_equivalent :
    ∀ (ticker start_date end_date interval : String)
      (interval_multiplier : Int),
      get_crypto_prices_url ticker start_date end_date interval
          interval_multiplier =
        get_historical_crypto_prices_url ticker start_date end_date interval
          interval_multiplier ∧
      ∀ (env : Option String) (oracle : String → Transport),
        get_crypto_prices env oracle ticker start_date end_date interval
            interval_multiplier =
          get_historical_crypto_prices env oracle ticker start_date end_date
            interval interval_multiplier := by
  intro ticker start_date end_date interval interval_multiplier
  exact ⟨rfl, fun _ _ => rfl⟩

/-- Claim C10: calling `get_sec_filings` with `filing_type = ""` behaves
exactly as if the parameter were omitted: the code tests Python truthiness
(`if filing_type:`), so the URL gets no `filing_type` parameter and the
whole tool output coincides with the omitted-parameter call. -/
theorem c10_empty_filing_type :
    ∀ (env : Option String) (oracle : String → Transport) (ticker : String)
      (limit : Int),
      get_sec_filings_url ticker limit (some "") =
        get_sec_filings_url ticker limit none ∧
      get_sec_filings env oracle ticker limit (some "") =
        get_sec_filings env oracle ticker limit none := by
  intro env oracle ticker limit
  exact ⟨rfl, rfl⟩
